import Mathlib

/-!
# TEKITOTOMATE broadcast bot: dispatcher, registry, broadcast and commands

A shallow embedding of `src/bot.js`:

* `sendInBatches` (bot.js:169-211), the batched, retrying fan-out executor;
* the registry handlers `my_chat_member` (bot.js:106-123), `groups.upsert`
  (bot.js:654-663), `group-participants.update` (bot.js:666-675) and the
  reconciliation sweep `syncGroups` (bot.js:214-261);
* `getMediaFromUrl` (bot.js:147-166) and `sendToAll` (bot.js:264-346), the fan-out to
  both backends;
* `getAdmins` (bot.js:66-74), `processCommand` (bot.js:349-472) and the
  `messages.upsert` handler (bot.js:557-651).

Modelling conventions.

* Recipient identifiers are strings.
* A send attempt settles: it either fulfils or rejects with a thrown value.  The
  environment is an oracle giving the outcome of the `attempt`-th call
  `sendFunction(itemId)` made by the task of the item at index `idx`; every run of
  the JavaScript code with a stateful send function induces such a table.
* `log` has no effect on the results and is not modelled; `delay` only suspends
  and is recorded in ghost traces.
* The tasks of one chunk run concurrently under `Promise.all`.  A task touches the
  shared `results` object exactly once, at the instant it finishes, so the only
  thing the interleaving decides is the order in which the tasks of the chunk
  finish.  That order is a parameter (`Schedule`).
* `writeJson` succeeds (an in-memory store), and is recorded in a ghost log.
* The handler works on a `World`: the registries, the connection globals and a
  ghost trace of external effects.  Requests to the outside (a reply to the
  requester, the fetch of the live groups, a media download, the backends of a
  broadcast) are answered by an `Env`; a reply may be rejected, and a step returns
  the world it leaves together with its value or the error it throws.
* The string methods `trim` and `toLowerCase` are parameters of the environment.
  The regular expression of bot.js:625 is embedded as a matcher on characters.
* The callback of `exec` in the update command runs after `processCommand` has
  returned and is not modelled; elapsed time, uptime and memory figures are left
  out of the reply texts.
-/

namespace Bot

/-! ## Data model -/

/-- Value thrown by a rejected send.  Only its `message` property is ever read
(bot.js:199); `none` stands for a thrown value without one. -/
structure Thrown where
  message : Option String
deriving DecidableEq, Repr

/-- Entry pushed on `results.errors` (bot.js:199). -/
structure ErrorEntry where
  id : String
  error : String
deriving DecidableEq, Repr

/-- The `results` object of `sendInBatches` (bot.js:170). -/
structure Results where
  success : Nat
  failed : Nat
  errors : List ErrorEntry
deriving DecidableEq, Repr

/-- One entry of `PARALLEL_CONFIG` (bot.js:80-91). -/
structure BatchConfig where
  batchSize : Nat
  batchDelay : Nat
  maxRetries : Nat
deriving DecidableEq, Repr

/-- Outcome table of the send function: `sendFunction idx itemId attempt` is the
completion of the `attempt`-th call `sendFunction(itemId)` issued for the item at
index `idx` of `items`. -/
abbrev SendFunction := Nat → String → Nat → Except Thrown Unit

/-- Instant at which the task of the item at a given index finishes; it fixes the
order in which the concurrent tasks of a chunk reach `results`. -/
abbrev Schedule := Nat → Nat

/-- Record of one item task, the async callback of `batch.map` (bot.js:180-201).
`calls` and `backoffs` are ghost traces: the attempt numbers on which
`sendFunction` was invoked and the `delay(500 * attempt)` waits. -/
structure ItemRun where
  idx : Nat
  itemId : String
  calls : List Nat
  backoffs : List Nat
  succeeded : Bool
  lastError : Option Thrown
deriving DecidableEq, Repr

/-- Event of a `sendInBatches` call, in the order of occurrence: a chunk is sliced
and `batch.map` starts one task per item of it; an item task finishes; the loop
suspends on `delay(config.batchDelay)`. -/
inductive BatchEvent where
  | chunk (batch : List String)
  | settled (task : ItemRun)
  | wait (ms : Nat)
deriving DecidableEq, Repr

/-- State of a `sendInBatches` call: the `results` object plus ghost traces
(`settled`: finished item tasks in finishing order; `batches`: the chunks sliced,
in processing order; `delays`: the `delay(config.batchDelay)` waits; `events`: the
three kinds of event in one sequence). -/
structure Run where
  results : Results
  settled : List ItemRun
  batches : List (List String)
  delays : List Nat
  events : List BatchEvent
deriving DecidableEq, Repr

/-! ## sendInBatches -/

/-- The expression `lastError?.message || 'Erro desconhecido'` (bot.js:199): an
absent error, an absent message and the empty message are all falsy. -/
def errorText : Option Thrown → String
  | some ⟨some m⟩ => if m = "" then "Erro desconhecido" else m
  | _ => "Erro desconhecido"

/-- JavaScript `try { body } catch (error) { handler }` on completions. -/
def tryCatchJs {α : Type} (body : Except Thrown α) (handler : Thrown → Except Thrown α) :
    Except Thrown α :=
  match body with
  | .ok a => .ok a
  | .error e => handler e

/-- The retry loop `for (let attempt = 1; attempt <= config.maxRetries; attempt++)`
of an item task with the statements after it (bot.js:183-200).  The first argument
counts the iterations left, `config.maxRetries + 1 - attempt`; at `0` the loop
condition fails and the item is recorded as failed. -/
def attemptLoop (sendFunction : SendFunction) (config : BatchConfig) :
    Nat → Nat → Option Thrown → ItemRun → Except Thrown ItemRun
  | 0, _, lastError, task =>
    .ok { task with succeeded := false, lastError := lastError }
  | n + 1, attempt, _, task =>
    tryCatchJs
      ((sendFunction task.idx task.itemId attempt).map fun _ =>
        { task with calls := task.calls ++ [attempt], succeeded := true })
      (fun error =>
        attemptLoop sendFunction config n (attempt + 1) (some error)
          { task with
            calls := task.calls ++ [attempt]
            backoffs :=
              if attempt < config.maxRetries then task.backoffs ++ [500 * attempt]
              else task.backoffs })

/-- The async callback given to `batch.map` (bot.js:180-201), for the item at
index `idx`. -/
def runItem (sendFunction : SendFunction) (config : BatchConfig) (idx : Nat) (itemId : String) :
    Except Thrown ItemRun :=
  attemptLoop sendFunction config config.maxRetries 1 none
    { idx := idx, itemId := itemId, calls := [], backoffs := [], succeeded := false,
      lastError := none }

/-- Completion of `Promise.all`: fulfilled with all values when every promise is
fulfilled, rejected with a rejection otherwise. -/
def promiseAll {α : Type} : List (Except Thrown α) → Except Thrown (List α)
  | [] => .ok []
  | .error e :: _ => .error e
  | .ok a :: rest =>
    match promiseAll rest with
    | .ok as => .ok (a :: as)
    | .error e => .error e

/-- Effect of a finished item task on the shared state: `results.success++`
(bot.js:186), or `results.failed++` and the push on `results.errors`
(bot.js:198-199). -/
def settle (run : Run) (task : ItemRun) : Run :=
  if task.succeeded then
    { run with
      results := { run.results with success := run.results.success + 1 }
      settled := run.settled ++ [task]
      events := run.events ++ [.settled task] }
  else
    { run with
      results :=
        { run.results with
          failed := run.results.failed + 1
          errors := run.results.errors ++ [⟨task.itemId, errorText task.lastError⟩] }
      settled := run.settled ++ [task]
      events := run.events ++ [.settled task] }

/-- Order in which the tasks of a chunk finish under the schedule. -/
def completionOrder (schedule : Schedule) (tasks : List ItemRun) : List ItemRun :=
  tasks.insertionSort (fun a b => schedule a.idx ≤ schedule b.idx)

/-- One chunk, `batch.map(...)` followed by `await Promise.all(promises)`
(bot.js:180-203); `i` is the index of the first item of the chunk. -/
def runBatch (sendFunction : SendFunction) (config : BatchConfig) (schedule : Schedule)
    (i : Nat) (batch : List String) (run : Run) : Except Thrown Run :=
  match promiseAll (batch.enum.map fun p => runItem sendFunction config (i + p.1) p.2) with
  | .error e => .error e
  | .ok tasks => .ok ((completionOrder schedule tasks).foldl settle run)

/-- The chunk loop `for (let i = 0; i < totalItems; i += config.batchSize)`
(bot.js:173-208).  `none` means the loop has not finished within `fuel`
iterations. -/
def batchLoop (items : List String) (sendFunction : SendFunction) (config : BatchConfig)
    (schedule : Schedule) : Nat → Nat → Run → Option (Except Thrown Run)
  | 0, _, _ => none
  | fuel + 1, i, run =>
    if i < items.length then
      let batch := (items.drop i).take config.batchSize
      match runBatch sendFunction config schedule i batch
          { run with
            batches := run.batches ++ [batch], events := run.events ++ [.chunk batch] } with
      | .error e => some (.error e)
      | .ok run1 =>
        let run2 :=
          if i + config.batchSize < items.length then
            { run1 with
              delays := run1.delays ++ [config.batchDelay]
              events := run1.events ++ [.wait config.batchDelay] }
          else run1
        batchLoop items sendFunction config schedule fuel (i + config.batchSize) run2
    else some (.ok run)

/-- Embedding of `sendInBatches(items, sendFunction, config, platform)`
(bot.js:169-211); `platform` only labels log lines. -/
def sendInBatches (items : List String) (sendFunction : SendFunction) (config : BatchConfig)
    (schedule : Schedule) (fuel : Nat) : Option (Except Thrown Run) :=
  batchLoop items sendFunction config schedule fuel 0
    { results := { success := 0, failed := 0, errors := [] }, settled := [], batches := [],
      delays := [], events := [] }

/-! ### Auxiliary definitions for the proofs -/

/-- Value with which the promise of an item task is fulfilled (the task never rejects,
see `runItem_eq_ok`). -/
def itemRun (s : SendFunction) (c : BatchConfig) (idx : Nat) (itemId : String) : ItemRun :=
  match runItem s c idx itemId with
  | .ok t => t
  | .error _ => ⟨idx, itemId, [], [], false, none⟩

/-- Item tasks of the items of `l`, the first of which has index `i`. -/
def tasksFrom (s : SendFunction) (c : BatchConfig) : Nat → List String → List ItemRun
  | _, [] => []
  | i, itemId :: rest => itemRun s c i itemId :: tasksFrom s c (i + 1) rest

/-- Entry recorded for a failed item task (bot.js:199). -/
def errorEntry (t : ItemRun) : ErrorEntry := ⟨t.itemId, errorText t.lastError⟩

/-- The `results` object is the tally of the finished item tasks. -/
structure Tally (run : Run) : Prop where
  success : run.results.success = run.settled.countP (fun t => t.succeeded)
  failed : run.results.failed = run.settled.countP (fun t => !t.succeeded)
  errors : run.results.errors = (run.settled.filter (fun t => !t.succeeded)).map errorEntry

/-! ## Membership registry -/

/-- The registry files `WHATSAPP_GROUPS_DB` and `TELEGRAM_CHATS_DB` (bot.js:22-23). -/
inductive DbFile where
  | whatsappGroups
  | telegramChats
deriving DecidableEq, Repr

/-- Persisted registries: the content of `groups.json` and of `telegram_chats.json`,
each an array of identifiers, and a ghost log of the `writeJson` calls. -/
structure Store where
  groups : List String
  chats : List String
  writes : List DbFile
deriving DecidableEq, Repr

/-- The call `readJson(file)` on a registry file (bot.js:39-46). -/
def readJson (store : Store) : DbFile → List String
  | .whatsappGroups => store.groups
  | .telegramChats => store.chats

/-- The call `writeJson(file, data)` on a registry file (bot.js:48-54). -/
def writeJson (store : Store) (file : DbFile) (data : List String) : Store :=
  match file with
  | .whatsappGroups => { store with groups := data, writes := store.writes ++ [file] }
  | .telegramChats => { store with chats := data, writes := store.writes ++ [file] }

/-- Payload of a Telegram `my_chat_member` event: `data.chat.id` and
`data.new_chat_member?.status`. -/
structure ChatMemberUpdate where
  chatId : String
  status : Option String
deriving DecidableEq, Repr

/-- The test `[...].includes(status)` on a possibly undefined status. -/
def statusIn (status : Option String) (values : List String) : Bool :=
  match status with
  | some st => values.contains st
  | none => false

/-- The `my_chat_member` handler (bot.js:106-123). -/
def myChatMember (store : Store) (data : ChatMemberUpdate) : Store :=
  let chats := readJson store .telegramChats
  let joined := statusIn data.status ["member", "administrator"] && !chats.contains data.chatId
  let chats1 := if joined then chats ++ [data.chatId] else chats
  let store1 := if joined then writeJson store .telegramChats chats1 else store
  if statusIn data.status ["left", "kicked"] then
    writeJson store1 .telegramChats (chats1.filter fun id => id != data.chatId)
  else store1

/-- The `groups.upsert` handler (bot.js:654-663) on the ids of the groups of the
event. -/
def groupsUpsert (store : Store) : List String → Store
  | [] => store
  | groupId :: rest =>
    let groupList := readJson store .whatsappGroups
    if groupList.contains groupId then groupsUpsert store rest
    else groupsUpsert (writeJson store .whatsappGroups (groupList ++ [groupId])) rest

/-- Payload of a `group-participants.update` event. -/
structure ParticipantsUpdate where
  id : String
  participants : List String
  action : String
deriving DecidableEq, Repr

/-- The expression `sock.user?.id?.split(':')[0] + '@s.whatsapp.net'` (bot.js:668);
`userId` is `sock.user?.id`. -/
def myId (userId : Option String) : String :=
  (match userId with
    | some u => String.mk (u.toList.takeWhile fun ch => ch != ':')
    | none => "undefined") ++ "@s.whatsapp.net"

/-- The `group-participants.update` handler (bot.js:666-675). -/
def groupParticipantsUpdate (store : Store) (userId : Option String)
    (event : ParticipantsUpdate) : Store :=
  if event.action = "remove" then
    if event.participants.contains (myId userId) then
      writeJson store .whatsappGroups
        ((readJson store .whatsappGroups).filter fun gid => gid != event.id)
    else store
  else store

/-- The globals `sock` (is it set) and `isConnected` (bot.js:94-96). -/
structure Connection where
  sock : Bool
  isConnected : Bool
deriving DecidableEq, Repr

/-- Result object of `syncGroups` (bot.js:248-252). -/
structure SyncResult where
  found : Nat
  added : Nat
  total : Nat
deriving DecidableEq, Repr

/-- Body of the loop `for (const groupId of groupIds)` of `syncGroups`
(bot.js:235-241) on the pair `(currentGroups, added)`; `currentSet` is the set built
from the registry before the loop. -/
def syncStep (currentSet : List String) (acc : List String × Nat) (groupId : String) :
    List String × Nat :=
  if currentSet.contains groupId then acc else (acc.1 ++ [groupId], acc.2 + 1)

/-- Embedding of `syncGroups()` (bot.js:214-261).  `fetch` is the completion of
`sock.groupFetchAllParticipating()` followed by `Object.keys`, the list of the ids
of the fetched groups; the keys of an object are pairwise distinct.  The result is
the completion of the call and the store it leaves. -/
def syncGroups (conn : Connection) (fetch : Except Thrown (List String)) (store : Store) :
    Except Thrown SyncResult × Store :=
  if !conn.sock || !conn.isConnected then
    (.error ⟨some "WhatsApp não está conectado"⟩, store)
  else
    match fetch with
    | .error e => (.error e, store)
    | .ok groupIds =>
      let currentGroups := readJson store .whatsappGroups
      let acc := groupIds.foldl (syncStep currentGroups) (currentGroups, 0)
      let store1 := if acc.2 > 0 then writeJson store .whatsappGroups acc.1 else store
      (.ok { found := groupIds.length, added := acc.2, total := acc.1.length }, store1)

/-- The identifiers of `before` that remain in `after` occur in `after` in the order
they had in `before`. -/
def orderKept (before after : List String) : Prop :=
  List.Sublist (before.filter fun x => decide (x ∈ after)) after

/-! ## sendToAll -/

/-- Contents of a Node `Buffer`. -/
abbrev Buffer := List Nat

/-- Media payload `{ buffer, mimetype }` (bot.js:160, bot.js:617); a field is `none`
when it is undefined. -/
structure Media where
  buffer : Option Buffer
  mimetype : Option String
deriving DecidableEq, Repr

/-- Response of `axios.get` as far as `getMediaFromUrl` reads it: the `content-type`
header and the body. -/
structure HttpResponse where
  contentType : Option String
  data : Buffer
deriving DecidableEq, Repr

/-- Content object given to `sock.sendMessage` by the WhatsApp closure
(bot.js:300-308). -/
inductive WaContent where
  | video (buffer : Buffer) (caption : String)
  | document (buffer : Buffer) (caption : String) (mimetype : Option String)
  | image (buffer : Buffer) (caption : String)
  | text (text : String)
deriving DecidableEq, Repr

/-- Call made on `telegramBot` by the Telegram closure (bot.js:323-329). -/
inductive TgCall where
  | sendPhotoUrl (url : String) (caption : String)
  | sendPhotoBuffer (buffer : Buffer) (caption : String)
  | sendMessage (text : String)
deriving DecidableEq, Repr

/-- The method `String.prototype.includes`. -/
def includes (s sub : String) : Bool :=
  s.toList.tails.any fun t => sub.toList.isPrefixOf t

/-- Truthiness of `mimetype?.includes(sub)`. -/
def optIncludes (mimetype : Option String) (sub : String) : Bool :=
  match mimetype with
  | some s => includes s sub
  | none => false

/-- The expression `a || b` on strings: the empty string is falsy. -/
def orElse (a b : String) : String :=
  if a = "" then b else a

/-- A possibly null string when it is truthy. -/
def truthy (s : Option String) : Option String :=
  match s with
  | some t => if t = "" then none else some t
  | none => none

/-- Content sent by the WhatsApp closure of `sendToAll` (bot.js:295-310). -/
def wppContent (media : Option Media) (message : String) : WaContent :=
  match media with
  | some ⟨some buffer, mimetype⟩ =>
    let isVideo := optIncludes mimetype "video"
    let isDocument := !optIncludes mimetype "image" && !isVideo
    if isVideo then .video buffer (orElse message "")
    else if isDocument then .document buffer (orElse message "") mimetype
    else .image buffer (orElse message "")
  | _ => .text (orElse message "📣 Nova mensagem!")

/-- Call made by the Telegram closure of `sendToAll` (bot.js:322-330). -/
def tgContent (media : Option Media) (imageUrl : Option String) (message : String) : TgCall :=
  match media with
  | some m =>
    match truthy imageUrl with
    | some url => .sendPhotoUrl url (orElse message "")
    | none =>
      match m.buffer with
      | some buffer => .sendPhotoBuffer buffer (orElse message "")
      | none => .sendMessage (orElse message "📣 Nova mensagem!")
  | none => .sendMessage (orElse message "📣 Nova mensagem!")

/-- Embedding of `getMediaFromUrl(url)` (bot.js:147-166); `axiosGet` is the completion
of the request. -/
def getMediaFromUrl (axiosGet : String → Except Thrown HttpResponse) (url : String) :
    Option Media :=
  match axiosGet url with
  | .ok response => some { buffer := some response.data, mimetype := response.contentType }
  | .error _ => none

/-- The constant `PARALLEL_CONFIG.whatsapp` (bot.js:81-85). -/
def parallelWhatsapp : BatchConfig := { batchSize := 4, batchDelay := 2500, maxRetries := 2 }

/-- The constant `PARALLEL_CONFIG.telegram` (bot.js:86-90). -/
def parallelTelegram : BatchConfig := { batchSize := 5, batchDelay := 1500, maxRetries := 2 }

/-- What the backends answer during one `sendToAll`: the completion of the media
request, the outcome tables of `sock.sendMessage` and of the Telegram calls for a
given content, and the finishing order of the tasks of each fan-out. -/
structure Backends where
  axiosGet : String → Except Thrown HttpResponse
  sockSendMessage : WaContent → SendFunction
  telegramSend : TgCall → SendFunction
  wppSchedule : Schedule
  tgSchedule : Schedule

/-- Ghost trace of the calls a send closure made during a run: one pair of recipient
and content per invocation of the closure. -/
def sendsOf {α : Type} (content : α) (run : Run) : List (String × α) :=
  run.settled.flatMap fun t => t.calls.map fun _ => (t.itemId, content)

/-- Value returned by `sendToAll` (bot.js:340-345) without the elapsed time and the
text summary built from it, plus ghost traces: the sends issued to each backend and
the media payload the closures used. -/
structure BroadcastSummary where
  whatsapp : Results
  telegram : Results
  wppSends : List (String × WaContent)
  tgSends : List (String × TgCall)
  media : Option Media
deriving DecidableEq, Repr

/-- The state of a `sendInBatches` call before its first chunk; also stands for a
fan-out that is skipped. -/
def emptyRun : Run :=
  { results := { success := 0, failed := 0, errors := [] }, settled := [], batches := [],
    delays := [], events := [] }

/-- Embedding of `sendToAll(message, imageUrl, directMedia)` (bot.js:264-346).
`telegramBot` tells whether the global of that name is set; `fuel` bounds the chunk
loops of the two fan-outs. -/
def sendToAll (env : Backends) (store : Store) (conn : Connection) (telegramBot : Bool)
    (message : String) (imageUrl : Option String) (directMedia : Option Media) (fuel : Nat) :
    Option (Except Thrown BroadcastSummary) :=
  let wppGroups := readJson store .whatsappGroups
  let tgChats := readJson store .telegramChats
  let media :=
    match directMedia, truthy imageUrl with
    | none, some url => getMediaFromUrl env.axiosGet url
    | _, _ => directMedia
  let wpp :=
    if conn.isConnected && conn.sock && decide (wppGroups.length > 0) then
      sendInBatches wppGroups (env.sockSendMessage (wppContent media message))
        parallelWhatsapp env.wppSchedule fuel
    else some (.ok emptyRun)
  match wpp with
  | none => none
  | some (.error e) => some (.error e)
  | some (.ok wppRun) =>
    let tg :=
      if telegramBot && decide (tgChats.length > 0) then
        sendInBatches tgChats (env.telegramSend (tgContent media imageUrl message))
          parallelTelegram env.tgSchedule fuel
      else some (.ok emptyRun)
    match tg with
    | none => none
    | some (.error e) => some (.error e)
    | some (.ok tgRun) =>
      some (.ok
        { whatsapp := wppRun.results
          telegram := tgRun.results
          wppSends := sendsOf (wppContent media message) wppRun
          tgSends := sendsOf (tgContent media imageUrl message) tgRun
          media := media })

/-! ## Administrator messages: processCommand and the messages.upsert handler -/

/-- What `JSON.parse` of the administrators file gives `getAdmins`: a failure, or the
`admins` property of the parsed value when it is an array. -/
inductive AdminsFile where
  | unreadable
  | parsed (admins : Option (List String))
deriving DecidableEq, Repr

/-- Embedding of `getAdmins()` (bot.js:66-74) on the state of the file at the moment of
the call. -/
def getAdmins : AdminsFile → List String
  | .parsed (some admins) => admins
  | _ => []

/-- An `imageMessage`, `videoMessage` or `documentMessage` of an inbound message. -/
structure MediaMessage where
  caption : Option String
  mimetype : Option String
deriving DecidableEq, Repr

/-- An inbound WhatsApp message as far as the handler reads it: `msg.key.fromMe`,
`msg.key.remoteJid` and the fields of `msg.message`. -/
structure Msg where
  fromMe : Bool
  remoteJid : Option String
  conversation : Option String
  extendedText : Option String
  imageMessage : Option MediaMessage
  videoMessage : Option MediaMessage
  documentMessage : Option MediaMessage
deriving DecidableEq, Repr

/-- Text of a reply sent to the administrator; environment values shown in a text
(uptime, memory, elapsed time) are left out. -/
inductive ReplyText where
  | status (wppGroups tgChats : Nat) (isConnected telegramActive : Bool)
  | test
  | reset
  | help
  | syncStart
  | syncDone (result : SyncResult)
  | syncError (message : Option String)
  | updateStart
  | commandError (message : Option String)
  | noGroups
  | downloading
  | sending
  | done (summary : BroadcastSummary)
  | invalid
deriving DecidableEq, Repr

/-- External effect of the handler, in a ghost trace: a `sock.sendMessage` to the
requester (fulfilled or rejected), the removal of the session directory, the
scheduled `process.exit`, the `exec` of the update check, a `sendToAll` call with
its arguments and result. -/
inductive Effect where
  | reply (chatId : Option String) (text : ReplyText)
  | replyFailed (chatId : Option String) (text : ReplyText)
  | sessionCleared
  | exitScheduled
  | updateCheck
  | broadcast (message : String) (imageUrl : Option String) (media : Option Media)
      (summary : BroadcastSummary)
deriving DecidableEq, Repr

/-- State the handler works on: the registry files, the globals `sock`,
`isConnected` and `telegramBot`, and the trace of effects so far. -/
structure World where
  store : Store
  conn : Connection
  telegramBot : Bool
  effects : List Effect
deriving DecidableEq, Repr

/-- The environment of the handler.  `trim` and `toLowerCase` are the JavaScript
string methods of these names.  The other fields are answers of the outside world,
indexed by the number of effects recorded when the request is made: the outcome of
a reply to the requester, of `sock.groupFetchAllParticipating()`, of
`downloadMediaMessage`, and the backend answers during a `sendToAll`. -/
structure Env where
  trim : String → String
  toLowerCase : String → String
  replyOutcome : Nat → Except Thrown Unit
  groupFetch : Nat → Except Thrown (List String)
  downloadMedia : Nat → Except Thrown (Option Buffer)
  backends : Nat → Backends

/-- Completion of an async step: the state it leaves and its value or thrown
error. -/
abbrev Step (α : Type) := World × Except Thrown α

/-- Sequencing of two steps: the second runs when the first one returns. -/
def Step.andThen {α β : Type} (s : Step α) (f : World → α → Step β) : Step β :=
  match s with
  | (w, .ok a) => f w a
  | (w, .error e) => (w, .error e)

/-- The statement `try { s } catch (error) { handler }`. -/
def Step.recover {α : Type} (s : Step α) (handler : World → Thrown → Step α) : Step α :=
  match s with
  | (w, .ok a) => (w, .ok a)
  | (w, .error e) => handler w e

/-- The call `await sock.sendMessage(chatId, { text })` towards the requester. -/
def sockReply (env : Env) (chatId : Option String) (text : ReplyText) (w : World) :
    Step Unit :=
  match env.replyOutcome w.effects.length with
  | .ok _ => ({ w with effects := w.effects ++ [.reply chatId text] }, .ok ())
  | .error e => ({ w with effects := w.effects ++ [.replyFailed chatId text] }, .error e)

/-- The expression `a || b || ... || dflt` on possibly undefined strings. -/
def firstTruthy : List (Option String) → String → String
  | [], dflt => dflt
  | s :: rest, dflt =>
    match truthy s with
    | some t => t
    | none => firstTruthy rest dflt

/-- The text of a message (bot.js:350-352 and bot.js:587-589). -/
def messageText (msg : Msg) : String :=
  firstTruthy [msg.conversation, msg.extendedText, msg.imageMessage.bind fun m => m.caption] ""

/-- The call `await syncGroups()` from the handler. -/
def syncGroupsStep (env : Env) (w : World) : Step SyncResult :=
  let r := syncGroups w.conn (env.groupFetch w.effects.length) w.store
  ({ w with store := r.2 }, r.1)

/-- The `try` block of `processCommand` (bot.js:357-466) on the normalised text. -/
def commandBody (env : Env) (comando : String) (chatId : Option String) (w : World) :
    Step Bool :=
  if comando = "status" then
    (sockReply env chatId
        (.status (readJson w.store .whatsappGroups).length
          (readJson w.store .telegramChats).length w.conn.isConnected w.telegramBot) w).andThen
      fun w1 _ => (w1, .ok true)
  else if comando = "test" ∨ comando = "teste" then
    (sockReply env chatId .test w).andThen fun w1 _ => (w1, .ok true)
  else if comando = "reset" then
    (sockReply env chatId .reset w).andThen fun w1 _ =>
      ({ w1 with effects := w1.effects ++ [.sessionCleared, .exitScheduled] }, .ok true)
  else if comando = "help" ∨ comando = "ajuda" then
    (sockReply env chatId .help w).andThen fun w1 _ => (w1, .ok true)
  else if comando = "sync" ∨ comando = "sincronizar" then
    (sockReply env chatId .syncStart w).andThen fun w1 _ =>
      (((syncGroupsStep env w1).andThen fun w2 result =>
            sockReply env chatId (.syncDone result) w2).recover
          fun w3 error => sockReply env chatId (.syncError error.message) w3).andThen
        fun w4 _ => (w4, .ok true)
  else if comando = "update" ∨ comando = "atualizar" then
    (sockReply env chatId .updateStart w).andThen fun w1 _ =>
      ({ w1 with effects := w1.effects ++ [.updateCheck] }, .ok true)
  else (w, .ok false)

/-- Embedding of `processCommand(msg, senderNumber)` (bot.js:349-472);
`senderNumber` only appears in log lines. -/
def processCommand (env : Env) (msg : Msg) (w : World) : Step Bool :=
  (commandBody env (env.toLowerCase (env.trim (messageText msg))) msg.remoteJid w).recover
    fun w1 error =>
      (sockReply env msg.remoteJid (.commandError error.message) w1).andThen
        fun w2 _ => (w2, .ok true)

/-- Line terminators, the characters `.` does not match in a regular expression. -/
def isLineTerminator (ch : Char) : Bool :=
  ch.toNat = 10 || ch.toNat = 13 || ch.toNat = 8232 || ch.toNat = 8233

/-- Match of a lower-case literal at the head of a list, ignoring case. -/
def startsWithCI (pattern : String) (l : List Char) : Bool :=
  pattern.toList.isPrefixOf (l.map Char.toLower)

/-- The alternatives of the group `(jpg|jpeg|png|gif|webp|mp4|mov|avi)`. -/
def mediaExtensions : List String :=
  ["jpg", "jpeg", "png", "gif", "webp", "mp4", "mov", "avi"]

/-- Match of `\.(jpg|jpeg|png|gif|webp|mp4|mov|avi)` at the head of a list. -/
def matchExtension (l : List Char) : Bool :=
  startsWithCI "." l && mediaExtensions.any fun ext => startsWithCI ext (l.drop 1)

/-- Match of `.+\.(jpg|jpeg|png|gif|webp|mp4|mov|avi)` at the head of a list. -/
def matchRest : List Char → Bool
  | [] => false
  | ch :: rest => !isLineTerminator ch && (matchExtension rest || matchRest rest)

/-- Match of the whole pattern at the head of a list. -/
def matchHere (l : List Char) : Bool :=
  startsWithCI "http" l &&
    ((startsWithCI "s://" (l.drop 4) && matchRest (l.drop 8)) ||
      (startsWithCI "://" (l.drop 4) && matchRest (l.drop 7)))

/-- The test `/https?:\/\/.+\.(jpg|jpeg|png|gif|webp|mp4|mov|avi)/i.test(content)`
(bot.js:625): the pattern matches somewhere in the text. -/
def mediaUrlTest (content : String) : Bool :=
  content.toList.tails.any matchHere

/-- The method `String.prototype.endsWith`. -/
def endsWith (s suffix : String) : Bool :=
  suffix.toList.isSuffixOf s.toList

/-- Removal of the first occurrence of `pattern` from a list of characters. -/
def removeFirst (pattern : List Char) : List Char → List Char
  | [] => []
  | ch :: rest =>
    if pattern.isPrefixOf (ch :: rest) then (ch :: rest).drop pattern.length
    else ch :: removeFirst pattern rest

/-- The expression `chatId.replace('@s.whatsapp.net', '')` (bot.js:574). -/
def senderNumberOf (chatId : String) : String :=
  String.mk (removeFirst "@s.whatsapp.net".toList chatId.toList)

/-- What the handler has worked out before it broadcasts: the text content, the
attached media and the media URL. -/
structure Outgoing where
  content : String
  media : Option Media
  imageUrl : Option String
deriving DecidableEq, Repr

/-- The media part of the handler (bot.js:604-629): download of an attached media,
else detection of a media URL in the text. -/
def resolveOutgoing (env : Env) (msg : Msg) (chatId : String) (w : World) : Step Outgoing :=
  if msg.imageMessage.isSome || msg.videoMessage.isSome || msg.documentMessage.isSome then
    (sockReply env (some chatId) .downloading w).andThen fun w1 _ =>
      match env.downloadMedia w1.effects.length with
      | .error e => (w1, .error e)
      | .ok (some buffer) =>
        (w1, .ok
          { content :=
              firstTruthy [msg.imageMessage.bind fun m => m.caption,
                msg.videoMessage.bind fun m => m.caption] ""
            media := some
              { buffer := some buffer
                mimetype := some (firstTruthy
                  [msg.imageMessage.bind fun m => m.mimetype,
                    msg.videoMessage.bind fun m => m.mimetype,
                    msg.documentMessage.bind fun m => m.mimetype]
                  "application/octet-stream") }
            imageUrl := none })
      | .ok none => (w1, .ok { content := messageText msg, media := none, imageUrl := none })
  else if mediaUrlTest (messageText msg) then
    (w, .ok { content := "", media := none, imageUrl := some (env.trim (messageText msg)) })
  else (w, .ok { content := messageText msg, media := none, imageUrl := none })

/-- The broadcast part of the handler (bot.js:586-645), run for an administrator
message that is not a command. -/
def broadcastBody (env : Env) (msg : Msg) (chatId : String) (fuel : Nat) (w : World) :
    Option (Step Unit) :=
  if (readJson w.store .whatsappGroups).length = 0 ∧
      (readJson w.store .telegramChats).length = 0 then
    some (sockReply env (some chatId) .noGroups w)
  else
    match resolveOutgoing env msg chatId w with
    | (w1, .error e) => some (w1, .error e)
    | (w1, .ok out) =>
      if out.content ≠ "" ∨ out.media.isSome ∨ (truthy out.imageUrl).isSome then
        match sockReply env (some chatId) .sending w1 with
        | (w2, .error e) => some (w2, .error e)
        | (w2, .ok _) =>
          match sendToAll (env.backends w2.effects.length) w2.store w2.conn w2.telegramBot
              (orElse out.content "📣 Nova mensagem do admin!") out.imageUrl out.media fuel with
          | none => none
          | some (.error e) => some (w2, .error e)
          | some (.ok resultado) =>
            some (sockReply env (some chatId) (.done resultado)
              { w2 with
                effects := w2.effects ++
                  [.broadcast (orElse out.content "📣 Nova mensagem do admin!") out.imageUrl
                    out.media resultado] })
      else some (sockReply env (some chatId) .invalid w1)

/-- The `try` block run for one message of a `messages.upsert` event
(bot.js:561-645); `adminsFile` is the state of the administrators file when the
message is handled. -/
def messageBody (env : Env) (adminsFile : AdminsFile) (msg : Msg) (fuel : Nat) (w : World) :
    Option (Step Unit) :=
  if msg.fromMe then some (w, .ok ())
  else
    match truthy msg.remoteJid with
    | none => some (w, .ok ())
    | some chatId =>
      if endsWith chatId "@g.us" then some (w, .ok ())
      else if !(getAdmins adminsFile).contains (senderNumberOf chatId) then some (w, .ok ())
      else
        match processCommand env msg w with
        | (w1, .error e) => some (w1, .error e)
        | (w1, .ok true) => some (w1, .ok ())
        | (w1, .ok false) => broadcastBody env msg chatId fuel w1

/-- One iteration of the loop over the messages of the event: the `try` block, and
the `catch` clause that only logs (bot.js:647-649). -/
def handleMessage (env : Env) (adminsFile : AdminsFile) (msg : Msg) (fuel : Nat) (w : World) :
    Option World :=
  (messageBody env adminsFile msg fuel w).map fun s => s.1

/-- The `messages.upsert` handler (bot.js:557-651) on the messages of an event, each
paired with the state of the administrators file when it is handled. -/
def messagesUpsert (env : Env) (type : String) (fuel : Nat) :
    List (Msg × AdminsFile) → World → Option World
  | [], w => some w
  | (msg, adminsFile) :: rest, w =>
    if type ≠ "notify" then some w
    else
      match handleMessage env adminsFile msg fuel w with
      | none => none
      | some w1 => messagesUpsert env type fuel rest w1

/-- The text is an http(s) URL ending in one of the extensions: a scheme `http` or
`https` in any case, `://`, at least one character, none of them white space or a
line terminator, a dot and one of the extensions in any case. -/
def isMediaUrl (text : String) : Prop :=
  ∃ scheme mid ext : List Char,
    text.toList = scheme ++ ("://".toList ++ (mid ++ (".".toList ++ ext))) ∧
    (scheme.map Char.toLower = "http".toList ∨ scheme.map Char.toLower = "https".toList) ∧
    mid ≠ [] ∧ (∀ ch ∈ mid, isLineTerminator ch = false ∧ ch.isWhitespace = false) ∧
    ∃ e ∈ mediaExtensions, ext.map Char.toLower = e.toList

/-! ## Example environment -/

/-- Lower-casing of the letters A to Z; agrees with `toLowerCase` on ASCII texts. -/
def asciiLower (s : String) : String :=
  String.mk (s.toList.map Char.toLower)

/-- Removal of leading and trailing spaces; agrees with `trim` on texts whose only
white space is the space character. -/
def spaceTrim (s : String) : String :=
  String.mk (((s.toList.dropWhile fun ch => ch == ' ').reverse.dropWhile
    fun ch => ch == ' ').reverse)

/-- Backends on which every request fails to fetch and every send succeeds. -/
def exampleBackends : Backends :=
  { axiosGet := fun _ => .error ⟨some "ENOTFOUND"⟩
    sockSendMessage := fun _ _ _ _ => .ok ()
    telegramSend := fun _ _ _ _ => .ok ()
    wppSchedule := fun i => i
    tgSchedule := fun i => i }

/-- An environment in which every reply is delivered and the live snapshot holds the
groups G1 and G2. -/
def exampleEnv : Env :=
  { trim := spaceTrim
    toLowerCase := asciiLower
    replyOutcome := fun _ => .ok ()
    groupFetch := fun _ => .ok ["G1", "G2"]
    downloadMedia := fun _ => .ok (some [1])
    backends := fun _ => exampleBackends }

/-- A text message received from `chatId`. -/
def textMsg (chatId text : String) : Msg :=
  { fromMe := false, remoteJid := some chatId, conversation := some text, extendedText := none,
    imageMessage := none, videoMessage := none, documentMessage := none }

/-- A world with one WhatsApp group and one Telegram chat, connected, and no effect
yet. -/
def exampleWorld : World :=
  { store := { groups := ["G1"], chats := ["t1"], writes := [] }
    conn := { sock := true, isConnected := true }
    telegramBot := true
    effects := [] }

/-- The event is the end of an item task. -/
def BatchEvent.isSettled : BatchEvent → Bool
  | .settled _ => true
  | _ => false

/-- The event is a wait of `delay(config.batchDelay)`. -/
def BatchEvent.isWait : BatchEvent → Bool
  | .wait _ => true
  | _ => false

/-- Events of a run that processes the chunks `batches` one after the other, the
tasks of each finishing in the order given by `parts`, with one wait of `ms` after
every chunk but the last. -/
def chunkTrace (ms : Nat) : List (List String) → List (List ItemRun) → List BatchEvent
  | batch :: bs, part :: ps =>
    .chunk batch ::
      (part.map .settled ++ ((if bs = [] then [] else [.wait ms]) ++ chunkTrace ms bs ps))
  | _, _ => []

/-! ## Lemmas on sendInBatches -/

theorem attemptLoop_spec (s : SendFunction) (c : BatchConfig) :
    ∀ (n a : Nat) (e : Option Thrown) (task : ItemRun),
      ∃ t, attemptLoop s c n a e task = .ok t ∧ t.idx = task.idx ∧ t.itemId = task.itemId ∧
        ∃ j, j ≤ n ∧ t.calls = task.calls ++ List.range' a j ∧
          (∀ k, a ≤ k → k + 1 < a + j → ∃ err, s task.idx task.itemId k = .error err) ∧
          ((t.succeeded = true ∧ 1 ≤ j ∧ s task.idx task.itemId (a + j - 1) = .ok ()) ∨
           (t.succeeded = false ∧ j = n ∧
              (∀ k, a ≤ k → k < a + n → ∃ err, s task.idx task.itemId k = .error err) ∧
              ((n = 0 ∧ t.lastError = e) ∨
               (1 ≤ n ∧ ∃ err, s task.idx task.itemId (a + n - 1) = .error err ∧
                  t.lastError = some err)))) := by
  intro n
  induction n with
  | zero =>
    intro a e task
    refine ⟨_, rfl, rfl, rfl, 0, le_refl _, by simp, ?_, Or.inr ⟨rfl, rfl, ?_, Or.inl ⟨rfl, rfl⟩⟩⟩
    · intro k h1 h2; omega
    · intro k h1 h2; omega
  | succ n ih =>
    intro a e task
    rw [attemptLoop]
    cases hs : s task.idx task.itemId a with
    | ok u =>
      refine ⟨_, rfl, rfl, rfl, 1, by omega, by simp, ?_, Or.inl ⟨rfl, le_refl _, ?_⟩⟩
      · intro k h1 h2; omega
      · simpa using hs
    | error err =>
      simp only [Except.map, tryCatchJs]
      obtain ⟨t, ht, hidx, hid, j, hj, hcalls, hbefore, hcase⟩ :=
        ih (a + 1) (some err)
          { task with
            calls := task.calls ++ [a]
            backoffs :=
              if a < c.maxRetries then task.backoffs ++ [500 * a] else task.backoffs }
      refine ⟨t, ht, hidx, hid, j + 1, by omega, ?_, ?_, ?_⟩
      · rw [hcalls]; simp [List.range'_succ]
      · intro k h1 h2
        by_cases hk : k = a
        · subst hk; exact ⟨err, hs⟩
        · exact hbefore k (by omega) (by omega)
      · rcases hcase with ⟨h1, h2, h3⟩ | ⟨h1, h2, h3, h4⟩
        · left
          refine ⟨h1, by omega, ?_⟩
          have : a + (j + 1) - 1 = a + 1 + j - 1 := by omega
          rw [this]; exact h3
        · right
          refine ⟨h1, by omega, ?_, Or.inr ⟨by omega, ?_⟩⟩
          · intro k hk1 hk2
            by_cases hk : k = a
            · subst hk; exact ⟨err, hs⟩
            · exact h3 k (by omega) (by omega)
          · rcases h4 with ⟨hn, hl⟩ | ⟨hn, err2, he2, hl⟩
            · subst hn
              exact ⟨err, by simpa using hs, hl⟩
            · refine ⟨err2, ?_, hl⟩
              have : a + (n + 1) - 1 = a + 1 + n - 1 := by omega
              rw [this]; exact he2

theorem attemptLoop_congr (s1 s2 : SendFunction) (c : BatchConfig) :
    ∀ (n a : Nat) (e : Option Thrown) (task : ItemRun),
      (∀ k, s1 task.idx task.itemId k = s2 task.idx task.itemId k) →
      attemptLoop s1 c n a e task = attemptLoop s2 c n a e task := by
  intro n
  induction n with
  | zero => intro a e task _; rfl
  | succ n ih =>
    intro a e task h
    rw [attemptLoop, attemptLoop, h a]
    cases s2 task.idx task.itemId a with
    | ok u => rfl
    | error err =>
      simp only [Except.map, tryCatchJs]
      exact ih _ _ _ h

theorem runItem_eq_ok (s : SendFunction) (c : BatchConfig) (idx : Nat) (itemId : String) :
    runItem s c idx itemId = .ok (itemRun s c idx itemId) := by
  obtain ⟨t, ht, -⟩ := attemptLoop_spec s c c.maxRetries 1 none
    ⟨idx, itemId, [], [], false, none⟩
  have h : runItem s c idx itemId = .ok t := ht
  simp [itemRun, h]

theorem promiseAll_tasks (s : SendFunction) (c : BatchConfig) (i : Nat) :
    ∀ (batch : List String) (k : Nat),
      promiseAll ((batch.enumFrom k).map fun p => runItem s c (i + p.1) p.2) =
        .ok (tasksFrom s c (i + k) batch) := by
  intro batch
  induction batch with
  | nil => intro k; rfl
  | cons x rest ih =>
    intro k
    have h := ih (k + 1)
    simp only [List.enumFrom_cons, List.map_cons, promiseAll, tasksFrom]
    rw [runItem_eq_ok]
    simp only [promiseAll]
    rw [h]
    rfl

theorem tasksFrom_append (s : SendFunction) (c : BatchConfig) :
    ∀ (l1 l2 : List String) (i : Nat),
      tasksFrom s c i (l1 ++ l2) = tasksFrom s c i l1 ++ tasksFrom s c (i + l1.length) l2 := by
  intro l1
  induction l1 with
  | nil => intro l2 i; simp [tasksFrom]
  | cons x rest ih =>
    intro l2 i
    have h := ih l2 (i + 1)
    have e : i + 1 + rest.length = i + (rest.length + 1) := by omega
    rw [e] at h
    show tasksFrom s c i (x :: (rest ++ l2)) = _
    simp only [tasksFrom, List.length_cons, h, List.cons_append]

theorem tasksFrom_length (s : SendFunction) (c : BatchConfig) :
    ∀ (l : List String) (i : Nat), (tasksFrom s c i l).length = l.length := by
  intro l
  induction l with
  | nil => intro i; rfl
  | cons x rest ih => intro i; simp [tasksFrom, ih]

theorem settle_settled (run : Run) (t : ItemRun) :
    (settle run t).settled = run.settled ++ [t] ∧ (settle run t).batches = run.batches ∧
      (settle run t).delays = run.delays := by
  unfold settle
  split <;> exact ⟨rfl, rfl, rfl⟩

theorem settle_tally (run : Run) (t : ItemRun) (h : Tally run) : Tally (settle run t) := by
  obtain ⟨h1, h2, h3⟩ := h
  unfold settle
  cases hs : t.succeeded with
  | true =>
    constructor
    · simp [h1, List.countP_append, hs, List.countP_cons, List.countP_nil]
    · simp [h2, List.countP_append, hs, List.countP_cons, List.countP_nil]
    · simp [h3, List.filter_append, hs, List.filter_cons]
  | false =>
    constructor
    · simp [h1, List.countP_append, hs, List.countP_cons, List.countP_nil]
    · simp [h2, List.countP_append, hs, List.countP_cons, List.countP_nil]
    · simp [h3, List.filter_append, hs, List.filter_cons, errorEntry]

theorem foldl_settle (tasks : List ItemRun) :
    ∀ run : Run, (tasks.foldl settle run).settled = run.settled ++ tasks ∧
      (tasks.foldl settle run).batches = run.batches ∧
      (tasks.foldl settle run).delays = run.delays ∧
      (Tally run → Tally (tasks.foldl settle run)) := by
  induction tasks with
  | nil => intro run; simp
  | cons t rest ih =>
    intro run
    obtain ⟨h1, h2, h3, h4⟩ := ih (settle run t)
    obtain ⟨g1, g2, g3⟩ := settle_settled run t
    simp only [List.foldl_cons]
    refine ⟨?_, ?_, ?_, ?_⟩
    · rw [h1, g1]; simp
    · rw [h2, g2]
    · rw [h3, g3]
    · intro h; exact h4 (settle_tally run t h)

theorem completionOrder_perm (schedule : Schedule) (tasks : List ItemRun) :
    (completionOrder schedule tasks).Perm tasks :=
  List.perm_insertionSort _ tasks

theorem runBatch_spec (s : SendFunction) (c : BatchConfig) (schedule : Schedule) (i : Nat)
    (batch : List String) (run : Run) :
    ∃ r, runBatch s c schedule i batch run = .ok r ∧
      r.settled = run.settled ++ completionOrder schedule (tasksFrom s c i batch) ∧
      r.batches = run.batches ∧ r.delays = run.delays ∧ (Tally run → Tally r) := by
  have h := promiseAll_tasks s c i batch 0
  simp only [Nat.add_zero] at h
  refine ⟨(completionOrder schedule (tasksFrom s c i batch)).foldl settle run, ?_,
    foldl_settle _ run⟩
  unfold runBatch
  rw [List.enum, h]

theorem batchLoop_spec (items : List String) (s : SendFunction) (c : BatchConfig)
    (schedule : Schedule) (hb : 1 ≤ c.batchSize) :
    ∀ (fuel i : Nat) (run : Run), items.length - i < fuel → Tally run →
      ∃ r, batchLoop items s c schedule fuel i run = some (.ok r) ∧ Tally r ∧
        r.settled.Perm (run.settled ++ tasksFrom s c i (items.drop i)) := by
  intro fuel
  induction fuel with
  | zero => intro i run h; omega
  | succ fuel ih =>
    intro i run hfuel htally
    rw [batchLoop]
    by_cases hi : i < items.length
    · simp only [hi, if_true]
      obtain ⟨r1, hr1, hset, hbat, hdel, htal⟩ :=
        runBatch_spec s c schedule i ((items.drop i).take c.batchSize)
          { run with
            batches := run.batches ++ [(items.drop i).take c.batchSize]
            events := run.events ++ [.chunk ((items.drop i).take c.batchSize)] }
      rw [hr1]
      simp only
      have htally1 : Tally r1 := htal ⟨htally.success, htally.failed, htally.errors⟩
      obtain ⟨r, hr, hrt, hperm⟩ :=
        ih (i + c.batchSize)
          (if i + c.batchSize < items.length then
            { r1 with
              delays := r1.delays ++ [c.batchDelay]
              events := r1.events ++ [.wait c.batchDelay] } else r1)
          (by omega)
          (by split
              · exact ⟨htally1.success, htally1.failed, htally1.errors⟩
              · exact htally1)
      refine ⟨r, hr, hrt, hperm.trans ?_⟩
      have hsplit : items.drop i =
          (items.drop i).take c.batchSize ++ items.drop (i + c.batchSize) := by
        rw [← List.drop_drop, List.take_append_drop]
      have hlen : ((items.drop i).take c.batchSize).length = min c.batchSize (items.length - i) := by
        simp
      have hsettled : (if i + c.batchSize < items.length then
            { r1 with
              delays := r1.delays ++ [c.batchDelay]
              events := r1.events ++ [.wait c.batchDelay] } else r1).settled = r1.settled := by
        split <;> rfl
      rw [hsettled, hset]
      conv_rhs => rw [hsplit, tasksFrom_append]
      simp only [List.append_assoc]
      refine List.Perm.append_left _ ?_
      by_cases hlast : i + c.batchSize < items.length
      · have : i + ((items.drop i).take c.batchSize).length = i + c.batchSize := by
          rw [hlen]; omega
        rw [this]
        exact List.Perm.append_right _ (completionOrder_perm _ _)
      · have hnil : items.drop (i + c.batchSize) = [] := by
          apply List.drop_eq_nil_of_le; omega
        rw [hnil]
        simp only [tasksFrom, List.append_nil]
        exact completionOrder_perm _ _
    · simp only [hi, if_false]
      refine ⟨run, rfl, htally, ?_⟩
      have hnil : items.drop i = [] := by
        apply List.drop_eq_nil_of_le; omega
      rw [hnil]; simp [tasksFrom]

theorem itemRun_spec (s : SendFunction) (c : BatchConfig) (idx : Nat) (itemId : String) :
    (itemRun s c idx itemId).idx = idx ∧ (itemRun s c idx itemId).itemId = itemId ∧
      ∃ j, j ≤ c.maxRetries ∧ (itemRun s c idx itemId).calls = List.range' 1 j ∧
        (∀ k, 1 ≤ k → k < j → ∃ err, s idx itemId k = .error err) ∧
        (((itemRun s c idx itemId).succeeded = true ∧ 1 ≤ j ∧ s idx itemId j = .ok ()) ∨
         ((itemRun s c idx itemId).succeeded = false ∧ j = c.maxRetries ∧
            ((c.maxRetries = 0 ∧ (itemRun s c idx itemId).lastError = none) ∨
             (∃ err, s idx itemId c.maxRetries = .error err ∧
                (itemRun s c idx itemId).lastError = some err)))) := by
  obtain ⟨t, ht, hidx, hid, j, hj, hcalls, hbefore, hcase⟩ :=
    attemptLoop_spec s c c.maxRetries 1 none ⟨idx, itemId, [], [], false, none⟩
  have h : runItem s c idx itemId = .ok t := ht
  have e : itemRun s c idx itemId = t := by simp [itemRun, h]
  rw [e]
  refine ⟨hidx, hid, j, hj, by simpa using hcalls, ?_, ?_⟩
  · intro k h1 h2
    exact hbefore k h1 (by omega)
  · rcases hcase with ⟨h1, h2, h3⟩ | ⟨h1, h2, -, h4⟩
    · left
      refine ⟨h1, h2, ?_⟩
      have : 1 + j - 1 = j := by omega
      rw [this] at h3; exact h3
    · right
      refine ⟨h1, h2, ?_⟩
      rcases h4 with ⟨h5, h6⟩ | ⟨h5, err, h6, h7⟩
      · exact Or.inl ⟨h5, h6⟩
      · right
        have : 1 + c.maxRetries - 1 = c.maxRetries := by omega
        rw [this] at h6
        exact ⟨err, h6, h7⟩

theorem mem_tasksFrom (s : SendFunction) (c : BatchConfig) (t : ItemRun) :
    ∀ (l : List String) (i : Nat), t ∈ tasksFrom s c i l ↔
      ∃ j itemId, l[j]? = some itemId ∧ t = itemRun s c (i + j) itemId := by
  intro l
  induction l with
  | nil => intro i; simp [tasksFrom]
  | cons x rest ih =>
    intro i
    simp only [tasksFrom, List.mem_cons, ih]
    constructor
    · rintro (h | ⟨j, itemId, h1, h2⟩)
      · exact ⟨0, x, by simp, by simpa using h⟩
      · refine ⟨j + 1, itemId, by simpa using h1, ?_⟩
        have : i + (j + 1) = i + 1 + j := by omega
        rw [this]; exact h2
    · rintro ⟨j, itemId, h1, h2⟩
      cases j with
      | zero =>
        left
        simp at h1
        subst h1
        simpa using h2
      | succ j =>
        right
        refine ⟨j, itemId, by simpa using h1, ?_⟩
        have : i + 1 + j = i + (j + 1) := by omega
        rw [this]; exact h2

theorem tasksFrom_map_idx (s : SendFunction) (c : BatchConfig) :
    ∀ (l : List String) (i : Nat),
      (tasksFrom s c i l).map (fun t => t.idx) = List.range' i l.length := by
  intro l
  induction l with
  | nil => intro i; rfl
  | cons x rest ih =>
    intro i
    simp [tasksFrom, ih, (itemRun_spec s c i x).1, List.range'_succ]

theorem sendInBatches_spec (items : List String) (s : SendFunction) (c : BatchConfig)
    (schedule : Schedule) (fuel : Nat) (hb : 1 ≤ c.batchSize) (hfuel : items.length < fuel) :
    ∃ r, sendInBatches items s c schedule fuel = some (.ok r) ∧ Tally r ∧
      r.settled.Perm (tasksFrom s c 0 items) := by
  obtain ⟨r, hr, ht, hp⟩ :=
    batchLoop_spec items s c schedule hb fuel 0
      { results := { success := 0, failed := 0, errors := [] }, settled := [], batches := [],
        delays := [], events := [] }
      (by simpa using hfuel) ⟨rfl, rfl, rfl⟩
  exact ⟨r, hr, ht, by simpa using hp⟩

theorem batchLoop_diverges (items : List String) (s : SendFunction) (c : BatchConfig)
    (schedule : Schedule) (hb : c.batchSize = 0) :
    ∀ (fuel i : Nat) (run : Run), i < items.length →
      batchLoop items s c schedule fuel i run = none := by
  intro fuel
  induction fuel with
  | zero => intro i run _; rfl
  | succ fuel ih =>
    intro i run hi
    rw [batchLoop]
    simp only [hi, if_true]
    obtain ⟨r1, hr1, -⟩ := runBatch_spec s c schedule i ((items.drop i).take c.batchSize)
      { run with
            batches := run.batches ++ [(items.drop i).take c.batchSize]
            events := run.events ++ [.chunk ((items.drop i).take c.batchSize)] }
    rw [hr1]
    simp only [hb, Nat.add_zero]
    exact ih i _ hi

theorem settled_item (s : SendFunction) (c : BatchConfig) (items : List String)
    (settled : List ItemRun) (hp : settled.Perm (tasksFrom s c 0 items)) (t : ItemRun)
    (ht : t ∈ settled) :
    items[t.idx]? = some t.itemId ∧ t = itemRun s c t.idx t.itemId := by
  obtain ⟨j, itemId, h1, h2⟩ := (mem_tasksFrom s c t items 0).1 (hp.mem_iff.1 ht)
  simp only [Nat.zero_add] at h2
  obtain ⟨hidx, hid, -⟩ := itemRun_spec s c j itemId
  rw [h2, hidx, hid]
  exact ⟨h1, rfl⟩

theorem settled_idx_perm (s : SendFunction) (c : BatchConfig) (items : List String)
    (settled : List ItemRun) (hp : settled.Perm (tasksFrom s c 0 items)) :
    (settled.map fun t => t.idx).Perm (List.range items.length) := by
  have h := hp.map (fun t => t.idx)
  rw [tasksFrom_map_idx, ← List.range_eq_range'] at h
  exact h

/-! ## Lemmas on the registry -/

theorem syncStep_foldl (cs : List String) :
    ∀ (groupIds : List String) (acc : List String × Nat),
      (groupIds.foldl (syncStep cs) acc).1 =
          acc.1 ++ groupIds.filter (fun g => !cs.contains g) ∧
        (groupIds.foldl (syncStep cs) acc).2 =
          acc.2 + (groupIds.filter fun g => !cs.contains g).length := by
  intro groupIds
  induction groupIds with
  | nil => intro acc; simp
  | cons g rest ih =>
    intro acc
    simp only [List.foldl_cons]
    obtain ⟨h1, h2⟩ := ih (syncStep cs acc g)
    rw [h1, h2]
    unfold syncStep
    by_cases hg : g ∈ cs
    · simp [hg, List.filter_cons]
    · simp [hg, List.filter_cons]
      omega

theorem syncGroups_groups (conn : Connection) (fetch : Except Thrown (List String))
    (store : Store) :
    (syncGroups conn fetch store).2.chats = store.chats ∧
    ((syncGroups conn fetch store).2.groups = store.groups ∨
      ∃ groupIds, conn.sock = true ∧ conn.isConnected = true ∧ fetch = .ok groupIds ∧
        (syncGroups conn fetch store).2.groups =
          store.groups ++ groupIds.filter fun g => !store.groups.contains g) := by
  unfold syncGroups
  by_cases hc : (!conn.sock || !conn.isConnected) = true
  · simp [hc]
  · simp only [hc]
    cases fetch with
    | error e => simp
    | ok groupIds =>
      obtain ⟨h1, h2⟩ := syncStep_foldl store.groups groupIds (store.groups, 0)
      simp only [readJson, Bool.false_eq_true, if_false]
      split
      · refine ⟨rfl, Or.inr ⟨groupIds, ?_, ?_, rfl, ?_⟩⟩
        · cases h : conn.sock <;> simp_all
        · cases h : conn.isConnected <;> simp_all
        · simp only [writeJson]; rw [h1]
      · exact ⟨rfl, Or.inl rfl⟩

/-! ## Events of a run and split of the finished tasks -/

theorem settle_events (run : Run) (t : ItemRun) :
    (settle run t).events = run.events ++ [.settled t] := by
  unfold settle
  split <;> rfl

theorem foldl_settle_events (tasks : List ItemRun) :
    ∀ run : Run, (tasks.foldl settle run).events = run.events ++ tasks.map .settled := by
  induction tasks with
  | nil => intro run; simp
  | cons t rest ih =>
    intro run
    simp only [List.foldl_cons, ih, settle_events, List.map_cons, List.append_assoc,
      List.singleton_append]

theorem runBatch_eq (s : SendFunction) (c : BatchConfig) (schedule : Schedule) (i : Nat)
    (batch : List String) (run : Run) :
    runBatch s c schedule i batch run =
      .ok ((completionOrder schedule (tasksFrom s c i batch)).foldl settle run) := by
  have h := promiseAll_tasks s c i batch 0
  simp only [Nat.add_zero] at h
  unfold runBatch
  rw [List.enum, h]

theorem tasksFrom_map_itemId (s : SendFunction) (c : BatchConfig) :
    ∀ (l : List String) (i : Nat), (tasksFrom s c i l).map (fun t => t.itemId) = l := by
  intro l
  induction l with
  | nil => intro i; rfl
  | cons x rest ih =>
    intro i
    simp [tasksFrom, ih, (itemRun_spec s c i x).2.1]

theorem batchLoop_events (items : List String) (s : SendFunction) (c : BatchConfig)
    (schedule : Schedule) (hb : 1 ≤ c.batchSize) :
    ∀ (fuel i : Nat) (run : Run), items.length - i < fuel →
      ∃ r B P, batchLoop items s c schedule fuel i run = some (.ok r) ∧
        r.batches = run.batches ++ B ∧ (B = [] ↔ items.length ≤ i) ∧
        P.length = B.length ∧
        r.settled = run.settled ++ P.flatten ∧
        r.events = run.events ++ chunkTrace c.batchDelay B P ∧
        ∀ (k : Nat) (part : List ItemRun) (batch : List String),
          P[k]? = some part → B[k]? = some batch →
          part.Perm (tasksFrom s c (i + k * c.batchSize) batch) := by
  intro fuel
  induction fuel with
  | zero => intro i run h; omega
  | succ fuel ih =>
    intro i run hfuel
    rw [batchLoop]
    by_cases hi : i < items.length
    · simp only [hi, if_true]
      rw [runBatch_eq]
      simp only
      obtain ⟨r, B, P, hr, hB, hnil, hlen, hset, hev, hparts⟩ :=
        ih (i + c.batchSize)
          (if i + c.batchSize < items.length then
            { ((completionOrder schedule
                  (tasksFrom s c i ((items.drop i).take c.batchSize))).foldl settle
                { run with
                  batches := run.batches ++ [(items.drop i).take c.batchSize]
                  events := run.events ++ [.chunk ((items.drop i).take c.batchSize)] }) with
              delays := ((completionOrder schedule
                  (tasksFrom s c i ((items.drop i).take c.batchSize))).foldl settle
                { run with
                  batches := run.batches ++ [(items.drop i).take c.batchSize]
                  events := run.events ++ [.chunk ((items.drop i).take c.batchSize)] }).delays ++
                [c.batchDelay]
              events := ((completionOrder schedule
                  (tasksFrom s c i ((items.drop i).take c.batchSize))).foldl settle
                { run with
                  batches := run.batches ++ [(items.drop i).take c.batchSize]
                  events := run.events ++ [.chunk ((items.drop i).take c.batchSize)] }).events ++
                [.wait c.batchDelay] }
          else
            (completionOrder schedule
              (tasksFrom s c i ((items.drop i).take c.batchSize))).foldl settle
              { run with
                batches := run.batches ++ [(items.drop i).take c.batchSize]
                events := run.events ++ [.chunk ((items.drop i).take c.batchSize)] })
          (by omega)
      obtain ⟨f1, f2, -, -⟩ := foldl_settle
        (completionOrder schedule (tasksFrom s c i ((items.drop i).take c.batchSize)))
        { run with
          batches := run.batches ++ [(items.drop i).take c.batchSize]
          events := run.events ++ [.chunk ((items.drop i).take c.batchSize)] }
      have f3 := foldl_settle_events
        (completionOrder schedule (tasksFrom s c i ((items.drop i).take c.batchSize)))
        { run with
          batches := run.batches ++ [(items.drop i).take c.batchSize]
          events := run.events ++ [.chunk ((items.drop i).take c.batchSize)] }
      refine ⟨r, (items.drop i).take c.batchSize :: B,
        completionOrder schedule (tasksFrom s c i ((items.drop i).take c.batchSize)) :: P,
        hr, ?_, ?_, ?_, ?_, ?_, ?_⟩
      · rw [hB]
        split <;> simp [f2]
      · constructor
        · intro h; cases h
        · intro h; omega
      · simp [hlen]
      · rw [hset]
        split <;> simp [f1]
      · rw [hev]
        have hB' : B = [] ↔ ¬ (i + c.batchSize < items.length) := by
          rw [hnil]; omega
        by_cases hlast : i + c.batchSize < items.length
        · have hne : B ≠ [] := fun h => (hB'.1 h) hlast
          simp only [hlast, if_true, f3, chunkTrace, hne, if_false]
          simp
        · have he : B = [] := hB'.2 hlast
          simp only [hlast, if_false, f3, chunkTrace, he, if_true]
          simp
      · intro k part batch hp hbt
        cases k with
        | zero =>
          simp only [List.getElem?_cons_zero, Option.some.injEq] at hp hbt
          subst hp hbt
          simpa using completionOrder_perm schedule _
        | succ k =>
          simp only [List.getElem?_cons_succ] at hp hbt
          have := hparts k part batch hp hbt
          have harith : i + (k + 1) * c.batchSize = i + c.batchSize + k * c.batchSize := by
            rw [Nat.succ_mul]; omega
          rw [harith]
          exact this
    · simp only [hi, if_false]
      refine ⟨run, [], [], rfl, by simp, ?_, rfl, by simp, by simp [chunkTrace], ?_⟩
      · constructor
        · intro _; omega
        · intro _; rfl
      · intro k part batch hp
        simp at hp

theorem chunkTrace_no_settled (ms : Nat) :
    ∀ (B : List (List String)) (P : List (List ItemRun)), P.length = B.length →
      (chunkTrace ms B P).filter (fun e => !e.isSettled) =
        (B.map BatchEvent.chunk).intersperse (.wait ms) := by
  intro B
  induction B with
  | nil => intro P _; cases P <;> rfl
  | cons b0 B ih =>
    intro P hlen
    cases P with
    | nil => simp at hlen
    | cons p0 P =>
      have hP : P.length = B.length := by simpa using hlen
      have hfilt : (p0.map BatchEvent.settled).filter (fun e => !e.isSettled) = [] := by
        rw [List.filter_eq_nil_iff]
        intro e he
        obtain ⟨t, -, rfl⟩ := List.mem_map.1 he
        simp [BatchEvent.isSettled]
      cases B with
      | nil =>
        cases P with
        | nil => simp [chunkTrace, List.filter_cons, BatchEvent.isSettled, hfilt]
        | cons p1 P => simp at hP
      | cons b1 B =>
        have := ih P hP
        simp only [chunkTrace, List.filter_cons, BatchEvent.isSettled, List.filter_append,
          hfilt, List.map_cons] at this ⊢
        simp [this, BatchEvent.isSettled]

theorem chunkTrace_no_wait (ms : Nat) :
    ∀ (B : List (List String)) (P : List (List ItemRun)), P.length = B.length →
      (chunkTrace ms B P).filter (fun e => !e.isWait) =
        (List.zipWith (fun batch part => BatchEvent.chunk batch :: part.map BatchEvent.settled)
          B P).flatten := by
  intro B
  induction B with
  | nil => intro P _; cases P <;> rfl
  | cons b0 B ih =>
    intro P hlen
    cases P with
    | nil => simp at hlen
    | cons p0 P =>
      have hP : P.length = B.length := by simpa using hlen
      have hfilt : (p0.map BatchEvent.settled).filter (fun e => !e.isWait) =
          p0.map BatchEvent.settled := by
        rw [List.filter_eq_self]
        intro e he
        obtain ⟨t, -, rfl⟩ := List.mem_map.1 he
        simp [BatchEvent.isWait]
      have := ih P hP
      have hc : (BatchEvent.chunk b0).isWait = false := rfl
      have hw : (BatchEvent.wait ms).isWait = true := rfl
      by_cases hB : B = []
      · simp [chunkTrace, List.filter_cons, hc, List.filter_append, hfilt, hB, this]
      · simp [chunkTrace, List.filter_cons, hc, hw, List.filter_append, hfilt, hB, this]

theorem chunkTrace_waits (ms : Nat) :
    ∀ (B : List (List String)) (P : List (List ItemRun)), P.length = B.length →
      (chunkTrace ms B P).filter (fun e => e.isWait) =
        List.replicate (B.length - 1) (.wait ms) := by
  intro B
  induction B with
  | nil => intro P _; cases P <;> rfl
  | cons b0 B ih =>
    intro P hlen
    cases P with
    | nil => simp at hlen
    | cons p0 P =>
      have hP : P.length = B.length := by simpa using hlen
      have hfilt : (p0.map BatchEvent.settled).filter (fun e => e.isWait) = [] := by
        rw [List.filter_eq_nil_iff]
        intro e he
        obtain ⟨t, -, rfl⟩ := List.mem_map.1 he
        simp [BatchEvent.isWait]
      have hc : (BatchEvent.chunk b0).isWait = false := rfl
      have hw : (BatchEvent.wait ms).isWait = true := rfl
      have := ih P hP
      cases B with
      | nil =>
        simp [chunkTrace, List.filter_cons, hc, List.filter_append, hfilt, this]
      | cons b1 B =>
        simp only [List.length_cons, Nat.add_sub_cancel] at this ⊢
        simp [chunkTrace, List.filter_cons, hc, hw, List.filter_append, hfilt, this,
          List.replicate_succ]

theorem sendInBatches_events (items : List String) (s : SendFunction) (c : BatchConfig)
    (schedule : Schedule) (fuel : Nat) (hb : 1 ≤ c.batchSize) (hfuel : items.length < fuel) :
    ∃ r P, sendInBatches items s c schedule fuel = some (.ok r) ∧
      P.length = r.batches.length ∧ r.settled = P.flatten ∧
      r.events = chunkTrace c.batchDelay r.batches P ∧
      ∀ (k : Nat) (part : List ItemRun) (batch : List String),
        P[k]? = some part → r.batches[k]? = some batch →
        part.Perm (tasksFrom s c (k * c.batchSize) batch) := by
  obtain ⟨r, B, P, hr, hB, -, hlen, hset, hev, hparts⟩ :=
    batchLoop_events items s c schedule hb fuel 0
      { results := { success := 0, failed := 0, errors := [] }, settled := [], batches := [],
        delays := [], events := [] }
      (by simpa using hfuel)
  simp only [List.nil_append, Nat.zero_add] at hB hset hev hparts
  subst hB
  exact ⟨r, P, hr, hlen, hset, hev, hparts⟩

theorem countP_split {α : Type} (P q : α → Bool) (l : List α) :
    l.countP P = (l.filter q).countP P + (l.filter fun a => !q a).countP P := by
  induction l with
  | nil => rfl
  | cons a l ih =>
    cases hq : q a <;> cases hP : P a <;>
      simp [List.filter_cons, List.countP_cons, hq, hP, ih] <;> omega

theorem filter_split_perm {α : Type} (q : α → Bool) (l : List α) :
    l.Perm (l.filter q ++ l.filter fun a => !q a) := by
  induction l with
  | nil => simp
  | cons a l ih =>
    cases hq : q a
    · simp only [List.filter_cons, hq, Bool.false_eq_true, if_false, Bool.not_false, if_true]
      exact (List.Perm.cons a ih).trans List.perm_middle.symm
    · simp only [List.filter_cons, hq, if_true, Bool.not_true, Bool.false_eq_true, if_false,
        List.cons_append]
      exact List.Perm.cons a ih

theorem tasksFrom_filter_congr (f g : SendFunction) (c : BatchConfig) (x : Nat)
    (h : ∀ idx itemId, idx ≠ x → itemRun f c idx itemId = itemRun g c idx itemId) :
    ∀ (l : List String) (i : Nat),
      (tasksFrom f c i l).filter (fun t => t.idx != x) =
        (tasksFrom g c i l).filter (fun t => t.idx != x) := by
  intro l
  induction l with
  | nil => intro i; rfl
  | cons a l ih =>
    intro i
    have hf := (itemRun_spec f c i a).1
    have hg := (itemRun_spec g c i a).1
    by_cases hi : i = x
    · subst hi
      simp [tasksFrom, List.filter_cons, hf, hg, ih]
    · simp [tasksFrom, List.filter_cons, hf, hg, hi, ih, h i a hi]

/-! ## Claims on sendInBatches -/

/-- C1: for batchSize >= 1 (and enough loop iterations), `sendInBatches` returns a
result whose success and failed counts add up to the number of items, whatever the
send function does on each attempt. -/
theorem sendInBatches_success_add_failed (items : List String) (sendFunction : SendFunction)
    (config : BatchConfig) (schedule : Schedule) (fuel : Nat) (hb : 1 ≤ config.batchSize)
    (hfuel : items.length < fuel) :
    ∃ r, sendInBatches items sendFunction config schedule fuel = some (.ok r) ∧
      r.results.success + r.results.failed = items.length := by
  obtain ⟨r, hr, ht, hp⟩ := sendInBatches_spec items sendFunction config schedule fuel hb hfuel
  refine ⟨r, hr, ?_⟩
  rw [ht.success, ht.failed, ← hp.length_eq.trans (tasksFrom_length _ _ _ _),
    List.length_eq_countP_add_countP (fun t : ItemRun => t.succeeded) r.settled]
  simp

theorem sendInBatches_success_add_failed_witness :
    1 ≤ (BatchConfig.mk 2 2500 2).batchSize ∧ ["A", "B", "C"].length < 4 ∧
      ∃ r, sendInBatches ["A", "B", "C"]
          (fun _ itemId _ => if itemId = "B" then .error ⟨some "timeout"⟩ else .ok ())
          ⟨2, 2500, 2⟩ (fun i => i) 4 = some (.ok r) ∧
        r.results.success + r.results.failed = ["A", "B", "C"].length :=
  ⟨by decide, by decide,
    sendInBatches_success_add_failed _ _ _ _ _ (by decide) (by decide)⟩

/-- C2 as stated fails: the error recorded for a failed item is not always the
message of its last failed attempt.  With items A and B, batchSize 1, maxRetries 1
and a send that rejects for B with an error whose message is empty, the entry
recorded for B carries the fallback text instead of that message. -/
theorem sendInBatches_error_not_last_message :
    ¬ ∀ (items : List String) (sendFunction : SendFunction) (config : BatchConfig)
        (schedule : Schedule) (fuel : Nat) (r : Run),
        1 ≤ config.batchSize → 1 ≤ config.maxRetries →
        sendInBatches items sendFunction config schedule fuel = some (.ok r) →
        ∀ t ∈ r.settled, t.succeeded = false →
          ∃ e, sendFunction t.idx t.itemId config.maxRetries = .error e ∧
            ∃ entry ∈ r.results.errors, entry.id = t.itemId ∧ e.message = some entry.error := by
  intro h
  have hrun : sendInBatches ["A", "B"]
      (fun _ itemId _ => if itemId = "B" then .error ⟨some ""⟩ else .ok ())
      ⟨1, 0, 1⟩ (fun i => i) 3 =
      some (.ok ⟨⟨1, 1, [⟨"B", "Erro desconhecido"⟩]⟩,
        [⟨0, "A", [1], [], true, none⟩, ⟨1, "B", [1], [], false, some ⟨some ""⟩⟩],
        [["A"], ["B"]], [0],
        [.chunk ["A"], .settled ⟨0, "A", [1], [], true, none⟩, .wait 0, .chunk ["B"],
          .settled ⟨1, "B", [1], [], false, some ⟨some ""⟩⟩]⟩) := by rfl
  obtain ⟨e, he, entry, hmem, -, hmsg⟩ :=
    h _ _ _ _ _ _ (by decide) (by decide) hrun ⟨1, "B", [1], [], false, some ⟨some ""⟩⟩
      (by simp) rfl
  simp only [List.mem_singleton] at hmem
  subst hmem
  have he2 : e = ⟨some ""⟩ := by
    simp at he
    exact he.symm
  subst he2
  simp at hmsg

/-- C2 (amended): every item has exactly one finished task; the result counts and
the errors list are the tally of the finished tasks; an item is counted as a
success iff one of its attempts 1..maxRetries succeeds, and its task ends at the
first such attempt; otherwise it is counted as failed with one entry whose error is
`errorText` of the error of attempt maxRetries: that error's message when it is a
non-empty string, the text "Erro desconhecido" otherwise. -/
theorem sendInBatches_item_outcomes (items : List String) (sendFunction : SendFunction)
    (config : BatchConfig) (schedule : Schedule) (fuel : Nat) (hb : 1 ≤ config.batchSize)
    (hfuel : items.length < fuel) :
    ∃ r, sendInBatches items sendFunction config schedule fuel = some (.ok r) ∧
      (r.settled.map fun t => t.idx).Perm (List.range items.length) ∧
      r.results.success = r.settled.countP (fun t => t.succeeded) ∧
      r.results.failed = r.settled.countP (fun t => !t.succeeded) ∧
      r.results.errors = (r.settled.filter fun t => !t.succeeded).map
        (fun t => ({ id := t.itemId, error := errorText t.lastError } : ErrorEntry)) ∧
      (∀ t ∈ r.settled, items[t.idx]? = some t.itemId ∧
        (t.succeeded = true ↔
          ∃ k, 1 ≤ k ∧ k ≤ config.maxRetries ∧ sendFunction t.idx t.itemId k = .ok ()) ∧
        (t.succeeded = true →
          sendFunction t.idx t.itemId t.calls.length = .ok () ∧
          ∀ k, 1 ≤ k → k < t.calls.length →
            ∃ e, sendFunction t.idx t.itemId k = .error e) ∧
        (t.succeeded = false →
          (config.maxRetries = 0 ∧ t.lastError = none) ∨
          ∃ e, sendFunction t.idx t.itemId config.maxRetries = .error e ∧
            t.lastError = some e)) ∧
      (∀ m : String, m ≠ "" → errorText (some ⟨some m⟩) = m) ∧
      errorText (some ⟨some ""⟩) = "Erro desconhecido" ∧
      errorText (some ⟨none⟩) = "Erro desconhecido" ∧
      errorText none = "Erro desconhecido" := by
  obtain ⟨r, hr, ht, hp⟩ := sendInBatches_spec items sendFunction config schedule fuel hb hfuel
  refine ⟨r, hr, settled_idx_perm _ _ _ _ hp, ht.success, ht.failed, ht.errors, ?_, ?_,
    rfl, rfl, rfl⟩
  · intro t htm
    obtain ⟨hitem, ht_eq⟩ := settled_item _ _ _ _ hp t htm
    obtain ⟨-, -, j, hj, hcalls, hbefore, hcase⟩ :=
      itemRun_spec sendFunction config t.idx t.itemId
    rw [← ht_eq] at hcalls hcase
    have hlen : t.calls.length = j := by rw [hcalls]; simp
    refine ⟨hitem, ?_, ?_, ?_⟩
    · constructor
      · intro hs
        rcases hcase with ⟨-, h2, h3⟩ | ⟨h1, -⟩
        · exact ⟨j, h2, hj, h3⟩
        · rw [hs] at h1; cases h1
      · rintro ⟨k, hk1, hk2, hk3⟩
        rcases hcase with ⟨h1, -⟩ | ⟨-, h2, h3⟩
        · exact h1
        · exfalso
          subst h2
          rcases Nat.lt_or_ge k config.maxRetries with hlt | hge
          · obtain ⟨err, herr⟩ := hbefore k hk1 hlt
            rw [hk3] at herr; cases herr
          · have hk : k = config.maxRetries := by omega
            subst hk
            rcases h3 with ⟨h4, -⟩ | ⟨err, herr, -⟩
            · omega
            · rw [hk3] at herr; cases herr
    · intro hs
      rcases hcase with ⟨-, -, h3⟩ | ⟨h1, -⟩
      · rw [hlen]
        exact ⟨h3, hbefore⟩
      · rw [hs] at h1; cases h1
    · intro hs
      rcases hcase with ⟨h1, -⟩ | ⟨-, -, h3⟩
      · rw [hs] at h1; cases h1
      · exact h3
  · intro m hm
    simp [errorText, hm]

theorem sendInBatches_item_outcomes_witness :
    1 ≤ (BatchConfig.mk 1 0 1).batchSize ∧ ["A", "B"].length < 3 ∧
      sendInBatches ["A", "B"]
          (fun _ itemId _ => if itemId = "B" then .error ⟨some "blocked"⟩ else .ok ())
          ⟨1, 0, 1⟩ (fun i => i) 3 =
        some (.ok ⟨⟨1, 1, [⟨"B", "blocked"⟩]⟩,
          [⟨0, "A", [1], [], true, none⟩, ⟨1, "B", [1], [], false, some ⟨some "blocked"⟩⟩],
          [["A"], ["B"]], [0],
          [.chunk ["A"], .settled ⟨0, "A", [1], [], true, none⟩, .wait 0, .chunk ["B"],
            .settled ⟨1, "B", [1], [], false, some ⟨some "blocked"⟩⟩]⟩) ∧
      ∃ r, sendInBatches ["A", "B"]
          (fun _ itemId _ => if itemId = "B" then .error ⟨some "blocked"⟩ else .ok ())
          ⟨1, 0, 1⟩ (fun i => i) 3 = some (.ok r) ∧
        r.results.success = r.settled.countP (fun t => t.succeeded) ∧
        r.results.failed = r.settled.countP (fun t => !t.succeeded) :=
  ⟨by decide, by decide, by rfl,
    (sendInBatches_item_outcomes ["A", "B"]
      (fun _ itemId _ => if itemId = "B" then .error ⟨some "blocked"⟩ else .ok ())
      ⟨1, 0, 1⟩ (fun i => i) 3 (by decide) (by decide)).imp
      fun _ h => ⟨h.1, h.2.2.1, h.2.2.2.1⟩⟩

/-- C3: in a run of `sendInBatches` every submitted item has exactly one task; the
task invokes the send function on attempts 1, 2, ..., at most maxRetries times, and
an attempt that succeeds is the last one made for the item. -/
theorem sendInBatches_retry_bound (items : List String) (sendFunction : SendFunction)
    (config : BatchConfig) (schedule : Schedule) (fuel : Nat) (hb : 1 ≤ config.batchSize)
    (hfuel : items.length < fuel) :
    ∃ r, sendInBatches items sendFunction config schedule fuel = some (.ok r) ∧
      (r.settled.map fun t => t.idx).Perm (List.range items.length) ∧
      ∀ t ∈ r.settled, items[t.idx]? = some t.itemId ∧
        t.calls.length ≤ config.maxRetries ∧
        t.calls = List.range' 1 t.calls.length ∧
        ∀ k ∈ t.calls, sendFunction t.idx t.itemId k = .ok () → ∀ j ∈ t.calls, j ≤ k := by
  obtain ⟨r, hr, -, hp⟩ := sendInBatches_spec items sendFunction config schedule fuel hb hfuel
  refine ⟨r, hr, settled_idx_perm _ _ _ _ hp, ?_⟩
  intro t htm
  obtain ⟨hitem, ht_eq⟩ := settled_item _ _ _ _ hp t htm
  obtain ⟨-, -, j, hj, hcalls, hbefore, -⟩ := itemRun_spec sendFunction config t.idx t.itemId
  rw [← ht_eq] at hcalls
  have hlen : t.calls.length = j := by rw [hcalls]; simp
  refine ⟨hitem, by omega, by rw [hlen]; exact hcalls, ?_⟩
  intro k hk hok i hi
  rw [hcalls] at hk hi
  simp only [List.mem_range'_1] at hk hi
  by_contra hlt
  obtain ⟨err, herr⟩ := hbefore k hk.1 (by omega)
  rw [hok] at herr
  cases herr

theorem sendInBatches_retry_bound_witness :
    1 ≤ (BatchConfig.mk 2 1500 2).batchSize ∧ ["A", "B", "C"].length < 4 ∧
      ∃ r, sendInBatches ["A", "B", "C"]
          (fun idx _ attempt => if idx = 1 ∧ attempt = 1 then .error ⟨none⟩ else .ok ())
          ⟨2, 1500, 2⟩ (fun i => 5 - i) 4 = some (.ok r) ∧
        (r.settled.map fun t => t.idx).Perm (List.range ["A", "B", "C"].length) ∧
        ∀ t ∈ r.settled, ["A", "B", "C"][t.idx]? = some t.itemId ∧
          t.calls.length ≤ (BatchConfig.mk 2 1500 2).maxRetries ∧
          t.calls = List.range' 1 t.calls.length ∧
          ∀ k ∈ t.calls,
            (fun idx (_ : String) attempt =>
              if idx = 1 ∧ attempt = 1 then (.error ⟨none⟩ : Except Thrown Unit) else .ok ())
              t.idx t.itemId k = .ok () → ∀ j ∈ t.calls, j ≤ k :=
  ⟨by decide, by decide,
    sendInBatches_retry_bound ["A", "B", "C"]
      (fun idx _ attempt => if idx = 1 ∧ attempt = 1 then .error ⟨none⟩ else .ok ())
      ⟨2, 1500, 2⟩ (fun i => 5 - i) 4 (by decide) (by decide)⟩

/-- C4: batch isolation.  If two send functions agree on every item but the one at
index x, and the second rejects every attempt on x, then both runs return and, under
any two schedules: every other item has the same finished task in both (same success
flag, same attempts, same last error); x is recorded as failed in the second run;
and the result objects differ by the contribution of x only: the successes of the
second run are those of the other items in the first, and the error entries of both
runs are, up to order, the entries of x followed by one and the same list of
entries, item id and recorded error text, of the other failed items. -/
theorem sendInBatches_batch_isolation (items : List String) (f g : SendFunction)
    (config : BatchConfig) (scheduleF scheduleG : Schedule) (fuel x : Nat)
    (hb : 1 ≤ config.batchSize) (hfuel : items.length < fuel)
    (hagree : ∀ idx itemId attempt, idx ≠ x → f idx itemId attempt = g idx itemId attempt)
    (hfail : ∀ itemId attempt, ∃ e, g x itemId attempt = .error e) :
    ∃ rf rg, sendInBatches items f config scheduleF fuel = some (.ok rf) ∧
      sendInBatches items g config scheduleG fuel = some (.ok rg) ∧
      (∀ t : ItemRun, t.idx ≠ x → (t ∈ rf.settled ↔ t ∈ rg.settled)) ∧
      (∀ t ∈ rg.settled, t.idx = x → t.succeeded = false) ∧
      (rf.settled.map fun t => t.idx).Perm (List.range items.length) ∧
      (rg.settled.map fun t => t.idx).Perm (List.range items.length) ∧
      (rf.settled.filter fun t => t.idx != x).Perm (rg.settled.filter fun t => t.idx != x) ∧
      rg.results.success =
        (rf.settled.filter fun t => t.idx != x).countP (fun t => t.succeeded) ∧
      rf.results.success = rg.results.success +
        (rf.settled.filter fun t => t.idx == x).countP (fun t => t.succeeded) ∧
      rg.results.failed =
        (rf.settled.filter fun t => t.idx != x).countP (fun t => !t.succeeded) +
          (rg.settled.filter fun t => t.idx == x).length ∧
      rf.results.failed =
        (rf.settled.filter fun t => t.idx != x).countP (fun t => !t.succeeded) +
          (rf.settled.filter fun t => t.idx == x).countP (fun t => !t.succeeded) ∧
      rf.results.errors.Perm
        (((rf.settled.filter fun t => t.idx == x).filter fun t => !t.succeeded).map
            (fun t => ({ id := t.itemId, error := errorText t.lastError } : ErrorEntry)) ++
          ((rf.settled.filter fun t => t.idx != x).filter fun t => !t.succeeded).map
            (fun t => ({ id := t.itemId, error := errorText t.lastError } : ErrorEntry))) ∧
      rg.results.errors.Perm
        ((rg.settled.filter fun t => t.idx == x).map
            (fun t => ({ id := t.itemId, error := errorText t.lastError } : ErrorEntry)) ++
          ((rf.settled.filter fun t => t.idx != x).filter fun t => !t.succeeded).map
            (fun t => ({ id := t.itemId, error := errorText t.lastError } : ErrorEntry))) := by
  obtain ⟨rf, hrf, htf, hpf⟩ := sendInBatches_spec items f config scheduleF fuel hb hfuel
  obtain ⟨rg, hrg, htg, hpg⟩ := sendInBatches_spec items g config scheduleG fuel hb hfuel
  have hitem : ∀ idx itemId, idx ≠ x → itemRun f config idx itemId = itemRun g config idx itemId := by
    intro idx itemId hne
    unfold itemRun runItem
    rw [attemptLoop_congr f g config _ _ _ _ (fun k => hagree idx itemId k hne)]
  have hxfail : ∀ t ∈ rg.settled, t.idx = x → t.succeeded = false := by
    intro t htm hx
    obtain ⟨-, ht_eq⟩ := settled_item _ _ _ _ hpg t htm
    obtain ⟨-, -, j, -, -, -, hcase⟩ := itemRun_spec g config t.idx t.itemId
    rw [← ht_eq] at hcase
    rcases hcase with ⟨-, -, h3⟩ | ⟨h1, -⟩
    · obtain ⟨e, he⟩ := hfail t.itemId j
      rw [hx, he] at h3
      cases h3
    · exact h1
  have hothers : (rf.settled.filter fun t => t.idx != x).Perm
      (rg.settled.filter fun t => t.idx != x) := by
    refine (hpf.filter _).trans ?_
    rw [tasksFrom_filter_congr f g config x hitem]
    exact (hpg.filter _).symm
  have hgx : ((rg.settled.filter fun t => t.idx == x).filter fun t => !t.succeeded) =
      rg.settled.filter fun t => t.idx == x := by
    rw [List.filter_eq_self]
    intro t ht
    have hmem := List.mem_filter.1 ht
    have := hxfail t hmem.1 (by simpa using hmem.2)
    simp [this]
  have hgx0 : (rg.settled.filter fun t => t.idx == x).countP (fun t => t.succeeded) = 0 := by
    rw [List.countP_eq_zero]
    intro t ht
    have hmem := List.mem_filter.1 ht
    have := hxfail t hmem.1 (by simpa using hmem.2)
    simp [this]
  have hgxlen : (rg.settled.filter fun t => t.idx == x).countP (fun t => !t.succeeded) =
      (rg.settled.filter fun t => t.idx == x).length := by
    rw [List.countP_eq_length_filter, hgx]
  have hsplitF := filter_split_perm (fun t : ItemRun => t.idx == x) rf.settled
  have hsplitG := filter_split_perm (fun t : ItemRun => t.idx == x) rg.settled
  refine ⟨rf, rg, hrf, hrg, ?_, hxfail, settled_idx_perm _ _ _ _ hpf,
    settled_idx_perm _ _ _ _ hpg, hothers, ?_, ?_, ?_, ?_, ?_, ?_⟩
  · intro t hne
    rw [hpf.mem_iff, hpg.mem_iff, mem_tasksFrom, mem_tasksFrom]
    constructor
    · rintro ⟨j, itemId, h1, h2⟩
      have hj : 0 + j ≠ x := by
        rw [h2, (itemRun_spec f config (0 + j) itemId).1] at hne; exact hne
      exact ⟨j, itemId, h1, by rw [h2, hitem _ _ hj]⟩
    · rintro ⟨j, itemId, h1, h2⟩
      have hj : 0 + j ≠ x := by
        rw [h2, (itemRun_spec g config (0 + j) itemId).1] at hne; exact hne
      exact ⟨j, itemId, h1, by rw [h2, hitem _ _ hj]⟩
  · rw [htg.success, countP_split (fun t => t.succeeded) (fun t : ItemRun => t.idx == x),
      hgx0, Nat.zero_add]
    exact (hothers.countP_eq _).symm
  · rw [htf.success, htg.success,
      countP_split (fun t => t.succeeded) (fun t : ItemRun => t.idx == x) rf.settled,
      countP_split (fun t => t.succeeded) (fun t : ItemRun => t.idx == x) rg.settled,
      hgx0, Nat.zero_add, Nat.add_comm]
    congr 1
    exact hothers.countP_eq _
  · rw [htg.failed, countP_split (fun t => !t.succeeded) (fun t : ItemRun => t.idx == x),
      hgxlen, Nat.add_comm]
    congr 1
    exact (hothers.countP_eq _).symm
  · rw [htf.failed,
      countP_split (fun t => !t.succeeded) (fun t : ItemRun => t.idx == x) rf.settled,
      Nat.add_comm]
    rfl
  · rw [htf.errors]
    have := (hsplitF.filter fun t => !t.succeeded).map errorEntry
    rw [List.filter_append, List.map_append] at this
    exact this
  · rw [htg.errors]
    have h1 := (hsplitG.filter fun t => !t.succeeded).map errorEntry
    rw [List.filter_append, List.map_append, hgx] at h1
    refine h1.trans (List.Perm.append_left _ ?_)
    exact ((hothers.symm.filter fun t => !t.succeeded).map errorEntry)

theorem sendInBatches_batch_isolation_witness :
    sendInBatches ["A", "B", "C", "D"]
        (fun idx _ _ => if idx = 3 then .error ⟨some "D is blocked"⟩ else .ok ())
        ⟨2, 0, 1⟩ (fun i => i) 5 =
      some (.ok
        { results := ⟨3, 1, [⟨"D", "D is blocked"⟩]⟩
          settled := [⟨0, "A", [1], [], true, none⟩, ⟨1, "B", [1], [], true, none⟩,
            ⟨2, "C", [1], [], true, none⟩,
            ⟨3, "D", [1], [], false, some ⟨some "D is blocked"⟩⟩]
          batches := [["A", "B"], ["C", "D"]]
          delays := [0]
          events := [.chunk ["A", "B"], .settled ⟨0, "A", [1], [], true, none⟩,
            .settled ⟨1, "B", [1], [], true, none⟩, .wait 0, .chunk ["C", "D"],
            .settled ⟨2, "C", [1], [], true, none⟩,
            .settled ⟨3, "D", [1], [], false, some ⟨some "D is blocked"⟩⟩] }) ∧
    (∃ rg,
      sendInBatches ["A", "B", "C", "D"]
          (fun idx _ _ =>
            if idx = 0 then .error ⟨some "banned"⟩
            else if idx = 3 then .error ⟨some "D is blocked"⟩ else .ok ())
          ⟨2, 0, 1⟩ (fun i => 9 - i) 5 = some (.ok rg) ∧
      rg.results = ⟨2, 2, [⟨"A", "banned"⟩, ⟨"D", "D is blocked"⟩]⟩) ∧
    ∃ rf rg,
      sendInBatches ["A", "B", "C", "D"]
          (fun idx _ _ => if idx = 3 then .error ⟨some "D is blocked"⟩ else .ok ())
          ⟨2, 0, 1⟩ (fun i => i) 5 = some (.ok rf) ∧
      sendInBatches ["A", "B", "C", "D"]
          (fun idx _ _ =>
            if idx = 0 then .error ⟨some "banned"⟩
            else if idx = 3 then .error ⟨some "D is blocked"⟩ else .ok ())
          ⟨2, 0, 1⟩ (fun i => 9 - i) 5 = some (.ok rg) ∧
      (∀ t : ItemRun, t.idx ≠ 0 → (t ∈ rf.settled ↔ t ∈ rg.settled)) ∧
      (∀ t ∈ rg.settled, t.idx = 0 → t.succeeded = false) ∧
      rf.results.success = rg.results.success +
        (rf.settled.filter fun t => t.idx == 0).countP (fun t => t.succeeded) :=
  ⟨by rfl, ⟨_, by rfl, by rfl⟩,
    (sendInBatches_batch_isolation ["A", "B", "C", "D"]
      (fun idx _ _ => if idx = 3 then .error ⟨some "D is blocked"⟩ else .ok ())
      (fun idx _ _ =>
        if idx = 0 then .error ⟨some "banned"⟩
        else if idx = 3 then .error ⟨some "D is blocked"⟩ else .ok ())
      ⟨2, 0, 1⟩ (fun i => i) (fun i => 9 - i) 5 0 (by decide) (by decide)
      (by intro idx itemId attempt h; simp [h])
      (by intro itemId attempt; exact ⟨⟨some "banned"⟩, by simp⟩)).imp fun _ h =>
        h.imp fun _ h => ⟨h.1, h.2.1, h.2.2.1, h.2.2.2.1, h.2.2.2.2.2.2.2.2.1⟩⟩

/-- C5: for batchSize >= 1 `sendInBatches` terminates and returns a result object
(it does not reject), whatever the send function does on each attempt; rejected
sends only show in the result: failed is the number of error entries, success plus
failed is the number of items, and an item all of whose attempts reject has an
error entry. -/
theorem sendInBatches_never_raises (items : List String) (sendFunction : SendFunction)
    (config : BatchConfig) (schedule : Schedule) (fuel : Nat) (hb : 1 ≤ config.batchSize)
    (hfuel : items.length < fuel) :
    ∃ r, sendInBatches items sendFunction config schedule fuel = some (.ok r) ∧
      r.results.failed = r.results.errors.length ∧
      r.results.success + r.results.failed = items.length ∧
      ∀ idx itemId, items[idx]? = some itemId →
        (∀ k, ∃ e, sendFunction idx itemId k = .error e) →
        ∃ entry ∈ r.results.errors, entry.id = itemId := by
  obtain ⟨r, hr, ht, hp⟩ := sendInBatches_spec items sendFunction config schedule fuel hb hfuel
  refine ⟨r, hr, ?_, ?_, ?_⟩
  · rw [ht.failed, ht.errors, List.length_map, List.countP_eq_length_filter]
  · rw [ht.success, ht.failed, ← hp.length_eq.trans (tasksFrom_length _ _ _ _),
      List.length_eq_countP_add_countP (fun t : ItemRun => t.succeeded) r.settled]
    simp
  · intro idx itemId hitem hall
    have hmem : itemRun sendFunction config idx itemId ∈ r.settled := by
      rw [hp.mem_iff, mem_tasksFrom]
      exact ⟨idx, itemId, hitem, by simp⟩
    obtain ⟨-, hid, j, -, -, -, hcase⟩ := itemRun_spec sendFunction config idx itemId
    have hfailed : (itemRun sendFunction config idx itemId).succeeded = false := by
      rcases hcase with ⟨-, -, h3⟩ | ⟨h1, -⟩
      · obtain ⟨e, he⟩ := hall j
        rw [he] at h3; cases h3
      · exact h1
    refine ⟨errorEntry (itemRun sendFunction config idx itemId), ?_, hid⟩
    rw [ht.errors]
    exact List.mem_map_of_mem _ (List.mem_filter.2 ⟨hmem, by simp [hfailed]⟩)

theorem sendInBatches_never_raises_witness :
    1 ≤ (BatchConfig.mk 4 2500 2).batchSize ∧ ["g1", "g2", "g3", "g4", "g5"].length < 6 ∧
      ∃ r, sendInBatches ["g1", "g2", "g3", "g4", "g5"] (fun _ _ _ => .error ⟨none⟩)
          ⟨4, 2500, 2⟩ (fun _ => 0) 6 = some (.ok r) ∧
        r.results.failed = r.results.errors.length ∧
        r.results.success + r.results.failed = ["g1", "g2", "g3", "g4", "g5"].length ∧
        ∀ (idx : Nat) (itemId : String), ["g1", "g2", "g3", "g4", "g5"][idx]? = some itemId →
          (∀ _ : Nat, ∃ e, (Except.error ⟨none⟩ : Except Thrown Unit) = .error e) →
          ∃ entry ∈ r.results.errors, entry.id = itemId :=
  ⟨by decide, by decide,
    sendInBatches_never_raises ["g1", "g2", "g3", "g4", "g5"] (fun _ _ _ => .error ⟨none⟩)
      ⟨4, 2500, 2⟩ (fun _ => 0) 6 (by decide) (by decide)⟩

/-! ## Further lemmas on the registry -/

theorem orderKept_append (l new : List String) : orderKept l (l ++ new) := by
  unfold orderKept
  have h : (l.filter fun x => decide (x ∈ l ++ new)) = l := by
    rw [List.filter_eq_self]
    intro a ha
    simp [ha]
  rw [h]
  exact List.sublist_append_left l new

theorem orderKept_refl (l : List String) : orderKept l l := by
  simpa using orderKept_append l []

theorem orderKept_filter (l : List String) (p : String → Bool) : orderKept l (l.filter p) := by
  unfold orderKept
  have h : (l.filter fun x => decide (x ∈ l.filter p)) = l.filter p := by
    apply List.filter_congr
    intro a ha
    simp [List.mem_filter, ha]
  rw [h]

theorem filter_ne_eq_self (l : List String) (x : String) (h : x ∉ l) :
    (l.filter fun y => y != x) = l := by
  rw [List.filter_eq_self]
  intro a ha
  simp only [bne_iff_ne, ne_eq]
  rintro rfl
  exact h ha

theorem groupsUpsert_spec :
    ∀ (ids : List String) (store : Store),
      (groupsUpsert store ids).chats = store.chats ∧
      ∃ new, (groupsUpsert store ids).groups = store.groups ++ new ∧ new.Nodup ∧
        (∀ x ∈ new, x ∈ ids ∧ x ∉ store.groups) ∧
        (∀ x ∈ ids, x ∈ (groupsUpsert store ids).groups) := by
  intro ids
  induction ids with
  | nil => intro store; exact ⟨rfl, [], by simp [groupsUpsert]⟩
  | cons g rest ih =>
    intro store
    by_cases hg : g ∈ store.groups
    · have e : groupsUpsert store (g :: rest) = groupsUpsert store rest := by
        simp [groupsUpsert, readJson, hg]
      rw [e]
      obtain ⟨h1, new, h2, h3, h4, h5⟩ := ih store
      refine ⟨h1, new, h2, h3, ?_, ?_⟩
      · intro x hx
        exact ⟨List.mem_cons_of_mem _ (h4 x hx).1, (h4 x hx).2⟩
      · intro x hx
        rcases List.mem_cons.1 hx with rfl | hx
        · rw [h2]; exact List.mem_append_left _ hg
        · exact h5 x hx
    · have e : groupsUpsert store (g :: rest) =
          groupsUpsert
            { store with
              groups := store.groups ++ [g], writes := store.writes ++ [.whatsappGroups] }
            rest := by
        simp [groupsUpsert, readJson, writeJson, hg]
      rw [e]
      obtain ⟨h1, new, h2, h3, h4, h5⟩ :=
        ih { store with
              groups := store.groups ++ [g], writes := store.writes ++ [.whatsappGroups] }
      simp only at h1 h2 h4
      refine ⟨h1, g :: new, by rw [h2]; simp, ?_, ?_, ?_⟩
      · refine List.nodup_cons.2 ⟨?_, h3⟩
        intro hmem
        exact (h4 g hmem).2 (by simp)
      · intro x hx
        rcases List.mem_cons.1 hx with rfl | hx
        · exact ⟨List.mem_cons_self _ _, hg⟩
        · refine ⟨List.mem_cons_of_mem _ (h4 x hx).1, ?_⟩
          intro hxg
          exact (h4 x hx).2 (List.mem_append_left _ hxg)
      · intro x hx
        rcases List.mem_cons.1 hx with rfl | hx
        · rw [h2]; simp
        · exact h5 x hx

theorem myChatMember_spec (store : Store) (data : ChatMemberUpdate) :
    (myChatMember store data).groups = store.groups ∧
    ((myChatMember store data).chats = store.chats ∨
     (data.chatId ∉ store.chats ∧
        (myChatMember store data).chats = store.chats ++ [data.chatId]) ∨
     (myChatMember store data).chats = store.chats.filter fun id => id != data.chatId) := by
  unfold myChatMember
  simp only [readJson]
  by_cases hj : (statusIn data.status ["member", "administrator"] &&
      !store.chats.contains data.chatId) = true
  · have hmem : data.chatId ∉ store.chats := by
      simp at hj
      exact hj.2
    simp only [hj, if_true]
    split
    · refine ⟨rfl, Or.inr (Or.inr ?_)⟩
      simp only [writeJson]
      rw [List.filter_append]
      simp
    · exact ⟨rfl, Or.inr (Or.inl ⟨hmem, rfl⟩)⟩
  · simp only [hj, Bool.false_eq_true, if_false]
    split
    · exact ⟨rfl, Or.inr (Or.inr rfl)⟩
    · exact ⟨rfl, Or.inl rfl⟩

theorem groupParticipantsUpdate_spec (store : Store) (userId : Option String)
    (event : ParticipantsUpdate) :
    (groupParticipantsUpdate store userId event).chats = store.chats ∧
    ((groupParticipantsUpdate store userId event).groups = store.groups ∨
     (groupParticipantsUpdate store userId event).groups =
        store.groups.filter fun gid => gid != event.id) := by
  unfold groupParticipantsUpdate
  split
  · split
    · exact ⟨rfl, Or.inr rfl⟩
    · exact ⟨rfl, Or.inl rfl⟩
  · exact ⟨rfl, Or.inl rfl⟩

/-! ## Claims on the registry -/

/-- C6: `syncGroups` is additive-only.  Whatever the connection state, the outcome
of the fetch and the snapshot, the registry after the call is the registry before
it followed by new entries: every identifier keeps its position, also those absent
from the snapshot, and the size does not decrease.  The Telegram registry is not
touched. -/
theorem syncGroups_additive (conn : Connection) (fetch : Except Thrown (List String))
    (store : Store) :
    (∃ new, (syncGroups conn fetch store).2.groups = store.groups ++ new) ∧
      (∀ (k : Nat) (x : String), store.groups[k]? = some x →
        (syncGroups conn fetch store).2.groups[k]? = some x) ∧
      (∀ x ∈ store.groups, x ∈ (syncGroups conn fetch store).2.groups) ∧
      store.groups.length ≤ (syncGroups conn fetch store).2.groups.length ∧
      (syncGroups conn fetch store).2.chats = store.chats := by
  obtain ⟨hchats, hgroups⟩ := syncGroups_groups conn fetch store
  have hnew : ∃ new, (syncGroups conn fetch store).2.groups = store.groups ++ new := by
    rcases hgroups with h | ⟨groupIds, -, -, -, h⟩
    · exact ⟨[], by simpa using h⟩
    · exact ⟨_, h⟩
  obtain ⟨new, hnew⟩ := hnew
  refine ⟨⟨new, hnew⟩, ?_, ?_, ?_, hchats⟩
  · intro k x hk
    rw [hnew]
    have hlt : k < store.groups.length := by
      by_contra hge
      rw [List.getElem?_eq_none (by omega)] at hk
      cases hk
    rw [List.getElem?_append_left hlt]
    exact hk
  · intro x hx
    rw [hnew]
    exact List.mem_append_left _ hx
  · rw [hnew, List.length_append]
    omega

/-- C7: on a connected bot whose fetch returns the ids `groupIds`, `syncGroups`
returns found = number of snapshot ids, added = number of snapshot ids absent from
the registry before, total = size of the registry after = size before + added, and
afterwards every snapshot id is in the registry.  For a snapshot of distinct ids the
two counts are the cardinalities of the snapshot set and of its difference with the
registry. -/
theorem syncGroups_counts (groupIds : List String) (store : Store) :
    ∃ res store1, syncGroups ⟨true, true⟩ (.ok groupIds) store = (.ok res, store1) ∧
      res.found = groupIds.length ∧
      res.added = (groupIds.filter fun g => !store.groups.contains g).length ∧
      res.total = store1.groups.length ∧
      res.total = store.groups.length + res.added ∧
      (∀ g ∈ groupIds, g ∈ store1.groups) ∧
      store1.groups = store.groups ++ (groupIds.filter fun g => !store.groups.contains g) ∧
      (groupIds.Nodup →
        res.found = groupIds.toFinset.card ∧
        res.added = (groupIds.toFinset \ store.groups.toFinset).card) := by
  obtain ⟨h1, h2⟩ := syncStep_foldl store.groups groupIds (store.groups, 0)
  simp only [Nat.zero_add] at h1 h2
  have hstore : (syncGroups ⟨true, true⟩ (.ok groupIds) store).2.groups =
      store.groups ++ (groupIds.filter fun g => !store.groups.contains g) := by
    simp only [syncGroups, readJson, Bool.not_true, Bool.or_self, Bool.false_eq_true, if_false]
    split
    · simp only [writeJson]; exact h1
    · rename_i hz
      rw [h2] at hz
      have : (groupIds.filter fun g => !store.groups.contains g) = [] := by
        apply List.eq_nil_of_length_eq_zero; omega
      rw [this]; simp
  refine ⟨⟨groupIds.length, (groupIds.foldl (syncStep store.groups) (store.groups, 0)).2,
      (groupIds.foldl (syncStep store.groups) (store.groups, 0)).1.length⟩,
    (syncGroups ⟨true, true⟩ (.ok groupIds) store).2, ?_, rfl, h2, ?_, ?_, ?_, hstore, ?_⟩
  · simp [syncGroups, readJson]
  · show (groupIds.foldl (syncStep store.groups) (store.groups, 0)).1.length = _
    rw [hstore, h1]
  · show (groupIds.foldl (syncStep store.groups) (store.groups, 0)).1.length =
      store.groups.length + (groupIds.foldl (syncStep store.groups) (store.groups, 0)).2
    rw [h1, h2, List.length_append]
  · intro g hg
    rw [hstore]
    by_cases hin : g ∈ store.groups
    · exact List.mem_append_left _ hin
    · exact List.mem_append_right _ (List.mem_filter.2 ⟨hg, by simp [hin]⟩)
  · intro hnd
    refine ⟨(List.toFinset_card_of_nodup hnd).symm, ?_⟩
    show (groupIds.foldl (syncStep store.groups) (store.groups, 0)).2 = _
    rw [h2, ← List.toFinset_card_of_nodup (hnd.filter _)]
    congr 1
    ext g
    simp [List.mem_filter]

theorem syncGroups_counts_witness :
    syncGroups ⟨true, true⟩ (.ok ["G1", "G2"]) ⟨["G1"], [], []⟩ =
        (.ok ⟨2, 1, 2⟩, ⟨["G1", "G2"], [], [.whatsappGroups]⟩) ∧
      ∃ res store1,
        syncGroups ⟨true, true⟩ (.ok ["G1", "G2"]) ⟨["G1"], [], []⟩ = (.ok res, store1) ∧
        res.found = 2 ∧ res.total = store1.groups.length ∧ "G2" ∈ store1.groups ∧
        res.found = ["G1", "G2"].toFinset.card :=
  ⟨by rfl,
    (syncGroups_counts ["G1", "G2"] ⟨["G1"], [], []⟩).imp fun _ h =>
      h.imp fun _ h =>
        ⟨h.1, h.2.1, h.2.2.2.1, h.2.2.2.2.2.1 "G2" (by simp),
          (h.2.2.2.2.2.2.2 (by decide)).1⟩⟩

theorem nodup_append_new (l ids : List String) (hl : l.Nodup) (hi : ids.Nodup) :
    (l ++ ids.filter fun g => !l.contains g).Nodup := by
  refine List.Nodup.append hl (hi.filter _) ?_
  intro a ha hb
  have := (List.mem_filter.1 hb).2
  simp [ha] at this

theorem filter_ne_spec (l : List String) (x : String) :
    x ∉ (l.filter fun y => y != x) ∧ List.Sublist (l.filter fun y => y != x) l ∧
      (∀ y, y ≠ x → (l.filter fun y => y != x).count y = l.count y) ∧
      (x ∉ l → (l.filter fun y => y != x) = l) ∧
      ((l.filter fun y => y != x).filter fun y => y != x) = l.filter fun y => y != x := by
  refine ⟨?_, List.filter_sublist l, ?_, filter_ne_eq_self l x, ?_⟩
  · simp [List.mem_filter]
  · intro y hy
    rw [List.count_filter]
    simpa using hy
  · rw [List.filter_filter]
    simp

/-- C8: the registry invariant.  If neither registry has a duplicate identifier,
then after a `groups.upsert`, a `my_chat_member`, a `group-participants.update` and
a `syncGroups` whose snapshot has distinct ids, neither has one, and the
identifiers that remain keep their relative order. -/
theorem registry_invariant (store : Store) (hg : store.groups.Nodup)
    (hc : store.chats.Nodup) :
    (∀ ids : List String,
      (groupsUpsert store ids).groups.Nodup ∧ (groupsUpsert store ids).chats = store.chats ∧
        orderKept store.groups (groupsUpsert store ids).groups) ∧
    (∀ data : ChatMemberUpdate,
      (myChatMember store data).chats.Nodup ∧ (myChatMember store data).groups = store.groups ∧
        orderKept store.chats (myChatMember store data).chats) ∧
    (∀ (userId : Option String) (event : ParticipantsUpdate),
      (groupParticipantsUpdate store userId event).groups.Nodup ∧
        (groupParticipantsUpdate store userId event).chats = store.chats ∧
        orderKept store.groups (groupParticipantsUpdate store userId event).groups) ∧
    (∀ (conn : Connection) (fetch : Except Thrown (List String)),
      (∀ groupIds, fetch = .ok groupIds → groupIds.Nodup) →
      (syncGroups conn fetch store).2.groups.Nodup ∧
        (syncGroups conn fetch store).2.chats = store.chats ∧
        orderKept store.groups (syncGroups conn fetch store).2.groups) := by
  refine ⟨?_, ?_, ?_, ?_⟩
  · intro ids
    obtain ⟨h1, new, h2, h3, h4, -⟩ := groupsUpsert_spec ids store
    refine ⟨?_, h1, by rw [h2]; exact orderKept_append _ _⟩
    rw [h2]
    refine List.Nodup.append hg h3 ?_
    intro a ha hb
    exact (h4 a hb).2 ha
  · intro data
    obtain ⟨h1, h2 | ⟨hn, h2⟩ | h2⟩ := myChatMember_spec store data
    · rw [h2]; exact ⟨hc, h1, orderKept_refl _⟩
    · rw [h2]
      refine ⟨?_, h1, orderKept_append _ _⟩
      refine List.Nodup.append hc (List.nodup_singleton _) ?_
      intro a ha hb
      rw [List.mem_singleton] at hb
      subst hb
      exact hn ha
    · rw [h2]; exact ⟨hc.filter _, h1, orderKept_filter _ _⟩
  · intro userId event
    obtain ⟨h1, h2 | h2⟩ := groupParticipantsUpdate_spec store userId event
    · rw [h2]; exact ⟨hg, h1, orderKept_refl _⟩
    · rw [h2]; exact ⟨hg.filter _, h1, orderKept_filter _ _⟩
  · intro conn fetch hnd
    obtain ⟨h1, h2 | ⟨groupIds, -, -, hf, h2⟩⟩ := syncGroups_groups conn fetch store
    · rw [h2]; exact ⟨hg, h1, orderKept_refl _⟩
    · rw [h2]
      exact ⟨nodup_append_new _ _ hg (hnd groupIds hf), h1, orderKept_append _ _⟩

theorem registry_invariant_witness :
    (Store.mk ["g1", "g2"] ["c1", "c2"] []).groups.Nodup ∧
    (Store.mk ["g1", "g2"] ["c1", "c2"] []).chats.Nodup ∧
    (groupsUpsert ⟨["g1", "g2"], ["c1", "c2"], []⟩ ["g3", "g1", "g3"]).groups.Nodup ∧
    (myChatMember ⟨["g1", "g2"], ["c1", "c2"], []⟩ ⟨"c1", some "kicked"⟩).chats.Nodup ∧
    orderKept ["c1", "c2"]
      (myChatMember ⟨["g1", "g2"], ["c1", "c2"], []⟩ ⟨"c1", some "kicked"⟩).chats ∧
    (syncGroups ⟨true, true⟩ (.ok ["g2", "g9"]) ⟨["g1", "g2"], ["c1", "c2"], []⟩).2.groups.Nodup :=
  have h := registry_invariant ⟨["g1", "g2"], ["c1", "c2"], []⟩ (by decide) (by decide)
  ⟨by decide, by decide, (h.1 ["g3", "g1", "g3"]).1, (h.2.1 ⟨"c1", some "kicked"⟩).1,
    (h.2.1 ⟨"c1", some "kicked"⟩).2.2,
    (h.2.2.2 ⟨true, true⟩ (.ok ["g2", "g9"])
      (by intro ids hids; cases hids; decide)).1⟩

/-- C9: registry add is idempotent, for the `groups.upsert` handler and for the
`my_chat_member` handler on a join status.  Adding an id that is present leaves the
store unchanged (no write); adding an absent id appends it at the end with one
write; adding the same id twice gives the same store as adding it once; two adds
grow the registry by at most one entry. -/
theorem registry_add_idempotent (store : Store) (id : String) :
    ((id ∈ store.groups → groupsUpsert store [id] = store) ∧
      (id ∉ store.groups → groupsUpsert store [id] =
        { store with
          groups := store.groups ++ [id], writes := store.writes ++ [.whatsappGroups] }) ∧
      groupsUpsert (groupsUpsert store [id]) [id] = groupsUpsert store [id] ∧
      groupsUpsert store [id, id] = groupsUpsert store [id] ∧
      (groupsUpsert (groupsUpsert store [id]) [id]).groups.length ≤
        store.groups.length + 1) ∧
    ∀ status : String, status = "member" ∨ status = "administrator" →
      (id ∈ store.chats → myChatMember store ⟨id, some status⟩ = store) ∧
      (id ∉ store.chats → myChatMember store ⟨id, some status⟩ =
        { store with
          chats := store.chats ++ [id], writes := store.writes ++ [.telegramChats] }) ∧
      myChatMember (myChatMember store ⟨id, some status⟩) ⟨id, some status⟩ =
        myChatMember store ⟨id, some status⟩ ∧
      (myChatMember (myChatMember store ⟨id, some status⟩) ⟨id, some status⟩).chats.length ≤
        store.chats.length + 1 := by
  have hup : ∀ st : Store, id ∈ st.groups → groupsUpsert st [id] = st := by
    intro st h
    simp [groupsUpsert, readJson, h]
  have hup2 : ∀ st : Store, id ∉ st.groups → groupsUpsert st [id] =
      { st with groups := st.groups ++ [id], writes := st.writes ++ [.whatsappGroups] } := by
    intro st h
    simp [groupsUpsert, readJson, writeJson, h]
  have hch : ∀ (st : Store) (status : String), status = "member" ∨ status = "administrator" →
      id ∈ st.chats → myChatMember st ⟨id, some status⟩ = st := by
    intro st status hs h
    rcases hs with rfl | rfl <;> simp [myChatMember, statusIn, readJson, h]
  have hch2 : ∀ (st : Store) (status : String), status = "member" ∨ status = "administrator" →
      id ∉ st.chats → myChatMember st ⟨id, some status⟩ =
        { st with chats := st.chats ++ [id], writes := st.writes ++ [.telegramChats] } := by
    intro st status hs h
    rcases hs with rfl | rfl <;> simp [myChatMember, statusIn, readJson, writeJson, h]
  refine ⟨⟨hup store, hup2 store, ?_, ?_, ?_⟩, ?_⟩
  · by_cases h : id ∈ store.groups
    · rw [hup store h, hup store h]
    · rw [hup2 store h]; exact hup _ (by simp)
  · by_cases h : id ∈ store.groups
    · simp [groupsUpsert, readJson, h]
    · simp [groupsUpsert, readJson, writeJson, h]
  · by_cases h : id ∈ store.groups
    · rw [hup store h, hup store h]; omega
    · rw [hup2 store h, hup _ (by simp)]; simp
  · intro status hs
    refine ⟨hch store status hs, hch2 store status hs, ?_, ?_⟩
    · by_cases h : id ∈ store.chats
      · rw [hch store status hs h, hch store status hs h]
      · rw [hch2 store status hs h]; exact hch _ status hs (by simp)
    · by_cases h : id ∈ store.chats
      · rw [hch store status hs h, hch store status hs h]; omega
      · rw [hch2 store status hs h, hch _ status hs (by simp)]; simp

theorem registry_add_idempotent_witness :
    groupsUpsert ⟨["g1"], ["c1"], []⟩ ["g1"] = ⟨["g1"], ["c1"], []⟩ ∧
    groupsUpsert (groupsUpsert ⟨["g1"], ["c1"], []⟩ ["g2"]) ["g2"] =
      ⟨["g1", "g2"], ["c1"], [.whatsappGroups]⟩ ∧
    myChatMember (myChatMember ⟨["g1"], ["c1"], []⟩ ⟨"c2", some "member"⟩)
        ⟨"c2", some "member"⟩ =
      myChatMember ⟨["g1"], ["c1"], []⟩ ⟨"c2", some "member"⟩ :=
  ⟨(registry_add_idempotent ⟨["g1"], ["c1"], []⟩ "g1").1.1 (by decide), by rfl,
    ((registry_add_idempotent ⟨["g1"], ["c1"], []⟩ "c2").2 "member" (Or.inl rfl)).2.2.1⟩

/-- C10: registry remove, for the `my_chat_member` handler on a leave status and for
the `group-participants.update` handler when the bot is among the removed
participants.  The registry after is the registry before without the entries equal
to the id, the others kept in order; if the id is absent the content is unchanged;
removing twice gives the same content as removing once. -/
theorem registry_remove_idempotent (store : Store) (id : String) :
    (∀ status : String, status = "left" ∨ status = "kicked" →
      (myChatMember store ⟨id, some status⟩).chats = (store.chats.filter fun y => y != id) ∧
      (myChatMember store ⟨id, some status⟩).groups = store.groups ∧
      id ∉ (myChatMember store ⟨id, some status⟩).chats ∧
      List.Sublist (myChatMember store ⟨id, some status⟩).chats store.chats ∧
      (∀ y, y ≠ id →
        (myChatMember store ⟨id, some status⟩).chats.count y = store.chats.count y) ∧
      (id ∉ store.chats → (myChatMember store ⟨id, some status⟩).chats = store.chats) ∧
      (myChatMember (myChatMember store ⟨id, some status⟩) ⟨id, some status⟩).chats =
        (myChatMember store ⟨id, some status⟩).chats) ∧
    (∀ (userId : Option String) (event : ParticipantsUpdate),
      event.action = "remove" → myId userId ∈ event.participants → event.id = id →
      (groupParticipantsUpdate store userId event).groups =
        (store.groups.filter fun y => y != id) ∧
      (groupParticipantsUpdate store userId event).chats = store.chats ∧
      id ∉ (groupParticipantsUpdate store userId event).groups ∧
      List.Sublist (groupParticipantsUpdate store userId event).groups store.groups ∧
      (∀ y, y ≠ id →
        (groupParticipantsUpdate store userId event).groups.count y = store.groups.count y) ∧
      (id ∉ store.groups → (groupParticipantsUpdate store userId event).groups = store.groups) ∧
      (groupParticipantsUpdate (groupParticipantsUpdate store userId event) userId event).groups =
        (groupParticipantsUpdate store userId event).groups) := by
  have hch : ∀ (st : Store) (status : String), status = "left" ∨ status = "kicked" →
      (myChatMember st ⟨id, some status⟩).chats = (st.chats.filter fun y => y != id) ∧
      (myChatMember st ⟨id, some status⟩).groups = st.groups := by
    intro st status hs
    rcases hs with rfl | rfl <;> simp [myChatMember, statusIn, readJson, writeJson]
  have hgp : ∀ (st : Store) (userId : Option String) (event : ParticipantsUpdate),
      event.action = "remove" → myId userId ∈ event.participants → event.id = id →
      (groupParticipantsUpdate st userId event).groups = (st.groups.filter fun y => y != id) ∧
      (groupParticipantsUpdate st userId event).chats = st.chats := by
    intro st userId event h1 h2 h3
    simp [groupParticipantsUpdate, readJson, writeJson, h1, h2, h3]
  refine ⟨?_, ?_⟩
  · intro status hs
    obtain ⟨h1, h2, h3, h4, h5⟩ := filter_ne_spec store.chats id
    obtain ⟨e1, e2⟩ := hch store status hs
    obtain ⟨e3, -⟩ := hch (myChatMember store ⟨id, some status⟩) status hs
    rw [e3, e1]
    exact ⟨rfl, e2, h1, h2, h3, h4, h5⟩
  · intro userId event ha hp hid
    obtain ⟨h1, h2, h3, h4, h5⟩ := filter_ne_spec store.groups id
    obtain ⟨e1, e2⟩ := hgp store userId event ha hp hid
    obtain ⟨e3, -⟩ := hgp (groupParticipantsUpdate store userId event) userId event ha hp hid
    rw [e3, e1]
    exact ⟨rfl, e2, h1, h2, h3, h4, h5⟩

theorem registry_remove_idempotent_witness :
    (myChatMember ⟨["g1", "g2"], ["c1", "c2", "c3"], []⟩ ⟨"c2", some "left"⟩).chats =
        ["c1", "c3"] ∧
    (myChatMember ⟨["g1", "g2"], ["c1", "c2", "c3"], []⟩ ⟨"c2", some "left"⟩).chats =
        (["c1", "c2", "c3"].filter fun y => y != "c2") ∧
    (groupParticipantsUpdate ⟨["g1", "g2"], ["c1", "c2", "c3"], []⟩ (some "5511:7@s.whatsapp.net")
        ⟨"g9", ["5511@s.whatsapp.net"], "remove"⟩).groups = ["g1", "g2"] :=
  ⟨by rfl,
    ((registry_remove_idempotent ⟨["g1", "g2"], ["c1", "c2", "c3"], []⟩ "c2").1 "left"
      (Or.inl rfl)).1,
    ((registry_remove_idempotent ⟨["g1", "g2"], ["c1", "c2", "c3"], []⟩ "g9").2
      (some "5511:7@s.whatsapp.net") ⟨"g9", ["5511@s.whatsapp.net"], "remove"⟩ rfl
      (by decide) rfl).2.2.2.2.2.1 (by decide)⟩

/-! ## Chunks and waits of sendInBatches -/

theorem ceil_step (m b : Nat) (hb : 1 ≤ b) (hm : 1 ≤ m) :
    (m + b - 1) / b = (m - b + b - 1) / b + 1 := by
  rcases Nat.lt_or_ge m b with hlt | hge
  · have h1 : m - b = 0 := by omega
    have h2 : (0 + b - 1) / b = 0 := Nat.div_eq_of_lt (by omega)
    have h3 : (m + b - 1) / b = 1 := by
      apply Nat.div_eq_of_lt_le <;> omega
    rw [h1, h2, h3]
  · have h1 : m + b - 1 = (m - b + b - 1) + b := by omega
    rw [h1, Nat.add_div_right _ (by omega)]

theorem batchLoop_trace (items : List String) (s : SendFunction) (c : BatchConfig)
    (schedule : Schedule) (hb : 1 ≤ c.batchSize) :
    ∀ (fuel i : Nat) (run : Run), items.length - i < fuel →
      ∃ r B, batchLoop items s c schedule fuel i run = some (.ok r) ∧
        r.batches = run.batches ++ B ∧ B.flatten = items.drop i ∧
        B.length = (items.length - i + c.batchSize - 1) / c.batchSize ∧
        (∀ batch ∈ B, 1 ≤ batch.length ∧ batch.length ≤ c.batchSize) ∧
        (∀ k, k + 1 < B.length → ∃ batch, B[k]? = some batch ∧ batch.length = c.batchSize) ∧
        r.delays = run.delays ++ List.replicate (B.length - 1) c.batchDelay := by
  intro fuel
  induction fuel with
  | zero => intro i run h; omega
  | succ fuel ih =>
    intro i run hfuel
    rw [batchLoop]
    by_cases hi : i < items.length
    · simp only [hi, if_true]
      obtain ⟨r1, hr1, -, hbat, hdel, -⟩ :=
        runBatch_spec s c schedule i ((items.drop i).take c.batchSize)
          { run with
            batches := run.batches ++ [(items.drop i).take c.batchSize]
            events := run.events ++ [.chunk ((items.drop i).take c.batchSize)] }
      rw [hr1]
      simp only
      obtain ⟨r, B, hr, hB, hjoin, hlen, hsize, hfull, hdelays⟩ :=
        ih (i + c.batchSize)
          (if i + c.batchSize < items.length then
            { r1 with
              delays := r1.delays ++ [c.batchDelay]
              events := r1.events ++ [.wait c.batchDelay] } else r1)
          (by omega)
      have hbatches : (if i + c.batchSize < items.length then
            { r1 with
              delays := r1.delays ++ [c.batchDelay]
              events := r1.events ++ [.wait c.batchDelay] } else r1).batches =
          run.batches ++ [(items.drop i).take c.batchSize] := by
        split <;> exact hbat
      have hblen : ((items.drop i).take c.batchSize).length =
          min c.batchSize (items.length - i) := by simp
      have hceil := ceil_step (items.length - i) c.batchSize hb (by omega)
      have hsub : items.length - i - c.batchSize = items.length - (i + c.batchSize) := by omega
      rw [hsub] at hceil
      refine ⟨r, (items.drop i).take c.batchSize :: B, hr, ?_, ?_, ?_, ?_, ?_, ?_⟩
      · rw [hB, hbatches]; simp
      · rw [List.flatten_cons, hjoin, ← List.drop_drop, List.take_append_drop]
      · rw [List.length_cons, hlen, hceil]
      · intro batch hmem
        rcases List.mem_cons.1 hmem with rfl | hmem
        · rw [hblen]; omega
        · exact hsize batch hmem
      · intro k hk
        cases k with
        | zero =>
          refine ⟨(items.drop i).take c.batchSize, by simp, ?_⟩
          rw [hblen]
          have hpos : 1 ≤ B.length := by simpa using hk
          have : i + c.batchSize < items.length := by
            by_contra hnot
            have h0 : items.length - (i + c.batchSize) = 0 := by omega
            rw [hlen, h0, Nat.div_eq_of_lt (by omega)] at hpos
            omega
          omega
        | succ k =>
          obtain ⟨batch, h1, h2⟩ := hfull k (by simpa using hk)
          exact ⟨batch, by simpa using h1, h2⟩
      · rw [hdelays]
        by_cases hlast : i + c.batchSize < items.length
        · simp only [hlast, if_true, hdel, List.length_cons, Nat.add_sub_cancel]
          have hpos : 1 ≤ B.length := by
            have h1 : 1 ≤ items.length - (i + c.batchSize) := by omega
            rw [hlen, ceil_step (items.length - (i + c.batchSize)) c.batchSize hb h1]
            exact Nat.le_add_left _ _
          obtain ⟨m, hm⟩ : ∃ m, B.length = m + 1 := ⟨B.length - 1, by omega⟩
          rw [hm, Nat.add_sub_cancel, List.replicate_succ]
          simp
        · simp only [hlast, if_false, hdel, List.length_cons, Nat.add_sub_cancel]
          have h0 : items.length - (i + c.batchSize) = 0 := by omega
          have hz : B.length = 0 := by
            rw [hlen, h0]; exact Nat.div_eq_of_lt (by omega)
          rw [hz]
    · simp only [hi, if_false]
      have hnil : items.drop i = [] := by
        apply List.drop_eq_nil_of_le; omega
      have h0 : items.length - i = 0 := by omega
      refine ⟨run, [], rfl, by simp, by simp [hnil], ?_, by simp, by simp, by simp⟩
      rw [h0]
      exact (Nat.div_eq_of_lt (by omega)).symm

theorem sendInBatches_trace (items : List String) (s : SendFunction) (c : BatchConfig)
    (schedule : Schedule) (fuel : Nat) (hb : 1 ≤ c.batchSize) (hfuel : items.length < fuel) :
    ∃ r, sendInBatches items s c schedule fuel = some (.ok r) ∧
      r.batches.flatten = items ∧
      r.batches.length = (items.length + c.batchSize - 1) / c.batchSize ∧
      (∀ batch ∈ r.batches, 1 ≤ batch.length ∧ batch.length ≤ c.batchSize) ∧
      (∀ k, k + 1 < r.batches.length →
        ∃ batch, r.batches[k]? = some batch ∧ batch.length = c.batchSize) ∧
      r.delays = List.replicate (r.batches.length - 1) c.batchDelay := by
  obtain ⟨r, B, hr, hB, hjoin, hlen, hsize, hfull, hdelays⟩ :=
    batchLoop_trace items s c schedule hb fuel 0
      { results := { success := 0, failed := 0, errors := [] }, settled := [], batches := [],
        delays := [], events := [] }
      (by simpa using hfuel)
  simp only [List.nil_append, List.drop_zero, Nat.sub_zero] at hB hjoin hlen hdelays
  subst hB
  exact ⟨r, hr, hjoin, hlen, hsize, hfull, hdelays⟩

/-- C18: for batchSize b >= 1, `sendInBatches` slices the n items into consecutive
chunks in submission order: the chunks concatenated in processing order are the
items, there are ceil(n / b) of them, every chunk but the last has exactly b items
and every chunk (so also the last) has between 1 and b items.  The chunks are
processed one after the other: leaving the waits out, the events of the run are, for
each chunk in turn, the slicing of the chunk followed by the end of each of its
tasks, at most b of them, which are the tasks of the items of that chunk, so no task
of a chunk is started before every task of the chunk before it has finished. -/
theorem sendInBatches_chunks (items : List String) (sendFunction : SendFunction)
    (config : BatchConfig) (schedule : Schedule) (fuel : Nat) (hb : 1 ≤ config.batchSize)
    (hfuel : items.length < fuel) :
    ∃ r, sendInBatches items sendFunction config schedule fuel = some (.ok r) ∧
      r.batches.flatten = items ∧
      r.batches.length = (items.length + config.batchSize - 1) / config.batchSize ∧
      (∀ batch ∈ r.batches, 1 ≤ batch.length ∧ batch.length ≤ config.batchSize) ∧
      (∀ k, k + 1 < r.batches.length →
        ∃ batch, r.batches[k]? = some batch ∧ batch.length = config.batchSize) ∧
      ∃ parts : List (List ItemRun),
        parts.length = r.batches.length ∧ r.settled = parts.flatten ∧
        r.events.filter (fun e => !e.isWait) =
          (List.zipWith
            (fun batch part => BatchEvent.chunk batch :: part.map BatchEvent.settled)
            r.batches parts).flatten ∧
        ∀ (k : Nat) (part : List ItemRun) (batch : List String),
          parts[k]? = some part → r.batches[k]? = some batch →
          (part.map fun t => t.itemId).Perm batch ∧
          (part.map fun t => t.idx).Perm (List.range' (k * config.batchSize) batch.length) ∧
          part.length ≤ config.batchSize := by
  obtain ⟨r, hr, h1, h2, h3, h4, -⟩ :=
    sendInBatches_trace items sendFunction config schedule fuel hb hfuel
  obtain ⟨r2, P, hr2, hlen, hset, hev, hparts⟩ :=
    sendInBatches_events items sendFunction config schedule fuel hb hfuel
  have hrr : r2 = r := by
    rw [hr] at hr2
    injection hr2 with h
    injection h with h
    exact h.symm
  subst hrr
  refine ⟨r2, hr, h1, h2, h3, h4, P, hlen, hset, ?_, ?_⟩
  · rw [hev]
    exact chunkTrace_no_wait _ _ _ hlen
  · intro k part batch hp hbt
    have hperm := hparts k part batch hp hbt
    refine ⟨?_, ?_, ?_⟩
    · have := hperm.map fun t => t.itemId
      rw [tasksFrom_map_itemId] at this
      exact this
    · have := hperm.map fun t => t.idx
      rw [tasksFrom_map_idx] at this
      exact this
    · rw [hperm.length_eq, tasksFrom_length]
      exact (h3 batch (List.getElem?_mem hbt)).2

theorem sendInBatches_chunks_witness :
    1 ≤ (BatchConfig.mk 2 2500 2).batchSize ∧ ["A", "B", "C", "D", "E"].length < 6 ∧
      sendInBatches ["A", "B", "C", "D", "E"] (fun _ _ _ => .ok ()) ⟨2, 2500, 2⟩
          (fun i => 9 - i) 6 =
        some (.ok ⟨⟨5, 0, []⟩,
          [⟨1, "B", [1], [], true, none⟩, ⟨0, "A", [1], [], true, none⟩,
            ⟨3, "D", [1], [], true, none⟩, ⟨2, "C", [1], [], true, none⟩,
            ⟨4, "E", [1], [], true, none⟩],
          [["A", "B"], ["C", "D"], ["E"]], [2500, 2500],
          [.chunk ["A", "B"], .settled ⟨1, "B", [1], [], true, none⟩,
            .settled ⟨0, "A", [1], [], true, none⟩, .wait 2500,
            .chunk ["C", "D"], .settled ⟨3, "D", [1], [], true, none⟩,
            .settled ⟨2, "C", [1], [], true, none⟩, .wait 2500,
            .chunk ["E"], .settled ⟨4, "E", [1], [], true, none⟩]⟩) ∧
      ∃ r, sendInBatches ["A", "B", "C", "D", "E"] (fun _ _ _ => .ok ()) ⟨2, 2500, 2⟩
          (fun i => 9 - i) 6 = some (.ok r) ∧
        r.batches.flatten = ["A", "B", "C", "D", "E"] ∧
        r.batches.length = (["A", "B", "C", "D", "E"].length + 2 - 1) / 2 ∧
        ∃ parts : List (List ItemRun),
          parts.length = r.batches.length ∧ r.settled = parts.flatten ∧
          r.events.filter (fun e => !e.isWait) =
            (List.zipWith
              (fun batch part => BatchEvent.chunk batch :: part.map BatchEvent.settled)
              r.batches parts).flatten :=
  ⟨by decide, by decide, by rfl,
    (sendInBatches_chunks ["A", "B", "C", "D", "E"] (fun _ _ _ => .ok ()) ⟨2, 2500, 2⟩
      (fun i => 9 - i) 6 (by decide) (by decide)).imp fun _ h =>
        ⟨h.1, h.2.1, h.2.2.1,
          h.2.2.2.2.2.imp fun _ hp => ⟨hp.1, hp.2.1, hp.2.2.1⟩⟩⟩

/-- C19: for batchSize b >= 1, `sendInBatches` waits `config.batchDelay` once after
every chunk but the last: the waits are ceil(n / b) - 1 copies of batchDelay, one
fewer than the chunks when there is an item, and none for an empty item list.  In
the sequence of events each wait stands between two consecutive chunks: leaving the
ends of tasks out, the events are the slicings of the chunks with one wait of
batchDelay between each two of them, none before the first and none after the
last. -/
theorem sendInBatches_delays (items : List String) (sendFunction : SendFunction)
    (config : BatchConfig) (schedule : Schedule) (fuel : Nat) (hb : 1 ≤ config.batchSize)
    (hfuel : items.length < fuel) :
    ∃ r, sendInBatches items sendFunction config schedule fuel = some (.ok r) ∧
      r.delays = List.replicate
        ((items.length + config.batchSize - 1) / config.batchSize - 1) config.batchDelay ∧
      r.delays.length = (items.length + config.batchSize - 1) / config.batchSize - 1 ∧
      (1 ≤ items.length → r.delays.length + 1 = r.batches.length) ∧
      (items = [] → r.delays = []) ∧
      r.batches.flatten = items ∧
      r.batches.length = (items.length + config.batchSize - 1) / config.batchSize ∧
      r.events.filter (fun e => !e.isSettled) =
        (r.batches.map BatchEvent.chunk).intersperse (.wait config.batchDelay) ∧
      r.events.filter (fun e => e.isWait) =
        List.replicate ((items.length + config.batchSize - 1) / config.batchSize - 1)
          (.wait config.batchDelay) := by
  obtain ⟨r, hr, h1, h2, -, -, h5⟩ :=
    sendInBatches_trace items sendFunction config schedule fuel hb hfuel
  obtain ⟨r2, P, hr2, hlen, -, hev, -⟩ :=
    sendInBatches_events items sendFunction config schedule fuel hb hfuel
  have hrr : r2 = r := by
    rw [hr] at hr2
    injection hr2 with h
    injection h with h
    exact h.symm
  subst hrr
  rw [h2] at h5
  refine ⟨r2, hr, h5, by rw [h5, List.length_replicate], ?_, ?_, h1, h2, ?_, ?_⟩
  · intro hn
    rw [h5, List.length_replicate, h2, ceil_step items.length config.batchSize hb hn,
      Nat.add_sub_cancel]
  · intro hnil
    subst hnil
    rw [h5]
    have : (([] : List String).length + config.batchSize - 1) / config.batchSize = 0 :=
      Nat.div_eq_of_lt (by simp; omega)
    rw [this]
    rfl
  · rw [hev]
    exact chunkTrace_no_settled _ _ _ hlen
  · rw [hev, chunkTrace_waits _ _ _ hlen, h2]

theorem sendInBatches_delays_witness :
    1 ≤ (BatchConfig.mk 2 2500 1).batchSize ∧ ["A", "B", "C", "D", "E"].length < 6 ∧
      sendInBatches ["A", "B", "C", "D", "E"] (fun _ _ _ => .error ⟨none⟩) ⟨2, 2500, 1⟩
          (fun i => i) 6 =
        some (.ok ⟨⟨0, 5, [⟨"A", "Erro desconhecido"⟩, ⟨"B", "Erro desconhecido"⟩,
            ⟨"C", "Erro desconhecido"⟩, ⟨"D", "Erro desconhecido"⟩,
            ⟨"E", "Erro desconhecido"⟩]⟩,
          [⟨0, "A", [1], [], false, some ⟨none⟩⟩, ⟨1, "B", [1], [], false, some ⟨none⟩⟩,
            ⟨2, "C", [1], [], false, some ⟨none⟩⟩, ⟨3, "D", [1], [], false, some ⟨none⟩⟩,
            ⟨4, "E", [1], [], false, some ⟨none⟩⟩],
          [["A", "B"], ["C", "D"], ["E"]], [2500, 2500],
          [.chunk ["A", "B"], .settled ⟨0, "A", [1], [], false, some ⟨none⟩⟩,
            .settled ⟨1, "B", [1], [], false, some ⟨none⟩⟩, .wait 2500,
            .chunk ["C", "D"], .settled ⟨2, "C", [1], [], false, some ⟨none⟩⟩,
            .settled ⟨3, "D", [1], [], false, some ⟨none⟩⟩, .wait 2500,
            .chunk ["E"], .settled ⟨4, "E", [1], [], false, some ⟨none⟩⟩]⟩) ∧
      ∃ r, sendInBatches ["A", "B", "C", "D", "E"] (fun _ _ _ => .error ⟨none⟩) ⟨2, 2500, 1⟩
          (fun i => i) 6 = some (.ok r) ∧
        r.delays = List.replicate ((["A", "B", "C", "D", "E"].length + 2 - 1) / 2 - 1) 2500 ∧
        r.delays.length = (["A", "B", "C", "D", "E"].length + 2 - 1) / 2 - 1 ∧
        r.events.filter (fun e => !e.isSettled) =
          (r.batches.map BatchEvent.chunk).intersperse (.wait 2500) :=
  ⟨by decide, by decide, by rfl,
    (sendInBatches_delays ["A", "B", "C", "D", "E"] (fun _ _ _ => .error ⟨none⟩) ⟨2, 2500, 1⟩
      (fun i => i) 6 (by decide) (by decide)).imp fun _ h =>
        ⟨h.1, h.2.1, h.2.2.1, h.2.2.2.2.2.2.2.1⟩⟩

/-! ## Claims on sendToAll -/

theorem sendInBatches_sends {α : Type} (content : α) (items : List String) (s : SendFunction)
    (c : BatchConfig) (schedule : Schedule) (fuel : Nat) (hb : 1 ≤ c.batchSize)
    (hr : 1 ≤ c.maxRetries) (hfuel : items.length < fuel) :
    ∃ r, sendInBatches items s c schedule fuel = some (.ok r) ∧
      r.results.success + r.results.failed = items.length ∧
      (∀ p ∈ sendsOf content r, p.1 ∈ items ∧ p.2 = content) ∧
      (∀ id ∈ items, (id, content) ∈ sendsOf content r) := by
  obtain ⟨r, hrun, ht, hp⟩ := sendInBatches_spec items s c schedule fuel hb hfuel
  refine ⟨r, hrun, ?_, ?_, ?_⟩
  · rw [ht.success, ht.failed, ← hp.length_eq.trans (tasksFrom_length _ _ _ _),
      List.length_eq_countP_add_countP (fun t : ItemRun => t.succeeded) r.settled]
    simp
  · intro p hmem
    obtain ⟨t, ht1, ht2⟩ := List.mem_flatMap.1 hmem
    obtain ⟨k, -, hk⟩ := List.mem_map.1 ht2
    obtain ⟨hitem, -⟩ := settled_item _ _ _ _ hp t ht1
    subst hk
    exact ⟨List.getElem?_mem hitem, rfl⟩
  · intro id hid
    obtain ⟨idx, hidx⟩ := List.mem_iff_getElem?.1 hid
    have hmem : itemRun s c idx id ∈ r.settled := by
      rw [hp.mem_iff, mem_tasksFrom]
      exact ⟨idx, id, hidx, by simp⟩
    obtain ⟨-, hitemId, j, -, hcalls, -, hcase⟩ := itemRun_spec s c idx id
    have hj : 1 ≤ j := by
      rcases hcase with ⟨-, h, -⟩ | ⟨-, h, -⟩
      · exact h
      · omega
    refine List.mem_flatMap.2 ⟨_, hmem, ?_⟩
    rw [hitemId, hcalls]
    exact List.mem_map.2 ⟨1, by simp; omega, rfl⟩

theorem sendsOf_emptyRun {α : Type} (content : α) : sendsOf content emptyRun = [] := rfl

theorem sendToAll_spec (env : Backends) (store : Store) (conn : Connection)
    (telegramBot : Bool) (message : String) (imageUrl : Option String)
    (directMedia : Option Media) (fuel : Nat) (hg : store.groups.length < fuel)
    (hc : store.chats.length < fuel) :
    ∃ summary, sendToAll env store conn telegramBot message imageUrl directMedia fuel =
        some (.ok summary) ∧
      summary.media =
        (match directMedia, truthy imageUrl with
          | none, some url => getMediaFromUrl env.axiosGet url
          | _, _ => directMedia) ∧
      (∀ p ∈ summary.wppSends,
        p.1 ∈ store.groups ∧ p.2 = wppContent summary.media message) ∧
      (∀ p ∈ summary.tgSends,
        p.1 ∈ store.chats ∧ p.2 = tgContent summary.media imageUrl message) ∧
      (conn.isConnected = true → conn.sock = true →
        summary.whatsapp.success + summary.whatsapp.failed = store.groups.length ∧
        ∀ id ∈ store.groups, (id, wppContent summary.media message) ∈ summary.wppSends) ∧
      (conn.isConnected = false ∨ conn.sock = false →
        summary.whatsapp = { success := 0, failed := 0, errors := [] } ∧
        summary.wppSends = []) ∧
      (telegramBot = true →
        summary.telegram.success + summary.telegram.failed = store.chats.length ∧
        ∀ id ∈ store.chats,
          (id, tgContent summary.media imageUrl message) ∈ summary.tgSends) ∧
      (telegramBot = false →
        summary.telegram = { success := 0, failed := 0, errors := [] } ∧
        summary.tgSends = []) := by
  generalize hmedia : (match directMedia, truthy imageUrl with
          | none, some url => getMediaFromUrl env.axiosGet url
          | _, _ => directMedia) = media
  have hw : ∃ wppRun,
      (if conn.isConnected && conn.sock && decide (store.groups.length > 0) then
        sendInBatches store.groups (env.sockSendMessage (wppContent media message))
          parallelWhatsapp env.wppSchedule fuel
      else some (.ok emptyRun)) = some (.ok wppRun) ∧
      (∀ p ∈ sendsOf (wppContent media message) wppRun,
        p.1 ∈ store.groups ∧ p.2 = wppContent media message) ∧
      (conn.isConnected = true → conn.sock = true →
        wppRun.results.success + wppRun.results.failed = store.groups.length ∧
        ∀ id ∈ store.groups,
          (id, wppContent media message) ∈ sendsOf (wppContent media message) wppRun) ∧
      (conn.isConnected = false ∨ conn.sock = false →
        wppRun.results = { success := 0, failed := 0, errors := [] } ∧
        sendsOf (wppContent media message) wppRun = []) := by
    by_cases hguard : (conn.isConnected && conn.sock && decide (store.groups.length > 0)) = true
    · obtain ⟨r, h1, h2, h3, h4⟩ := sendInBatches_sends (wppContent media message) store.groups
        (env.sockSendMessage (wppContent media message)) parallelWhatsapp env.wppSchedule fuel
        (by decide) (by decide) hg
      refine ⟨r, by rw [if_pos hguard]; exact h1, h3, fun _ _ => ⟨h2, h4⟩, ?_⟩
      intro hdown
      simp only [Bool.and_eq_true] at hguard
      rcases hdown with h | h
      · rw [h] at hguard; exact absurd hguard.1.1 (by decide)
      · rw [h] at hguard; exact absurd hguard.1.2 (by decide)
    · refine ⟨emptyRun, by rw [if_neg hguard], by simp [sendsOf_emptyRun], ?_, fun _ => ⟨rfl, rfl⟩⟩
      intro h1 h2
      have hlen : store.groups.length = 0 := by
        simp only [h1, h2, Bool.and_self, Bool.true_and, decide_eq_true_eq] at hguard
        omega
      have hnil : store.groups = [] := List.eq_nil_of_length_eq_zero hlen
      rw [hnil]
      exact ⟨rfl, by simp⟩
  have ht : ∃ tgRun,
      (if telegramBot && decide (store.chats.length > 0) then
        sendInBatches store.chats (env.telegramSend (tgContent media imageUrl message))
          parallelTelegram env.tgSchedule fuel
      else some (.ok emptyRun)) = some (.ok tgRun) ∧
      (∀ p ∈ sendsOf (tgContent media imageUrl message) tgRun,
        p.1 ∈ store.chats ∧ p.2 = tgContent media imageUrl message) ∧
      (telegramBot = true →
        tgRun.results.success + tgRun.results.failed = store.chats.length ∧
        ∀ id ∈ store.chats,
          (id, tgContent media imageUrl message) ∈
            sendsOf (tgContent media imageUrl message) tgRun) ∧
      (telegramBot = false →
        tgRun.results = { success := 0, failed := 0, errors := [] } ∧
        sendsOf (tgContent media imageUrl message) tgRun = []) := by
    by_cases hguard : (telegramBot && decide (store.chats.length > 0)) = true
    · obtain ⟨r, h1, h2, h3, h4⟩ := sendInBatches_sends (tgContent media imageUrl message)
        store.chats (env.telegramSend (tgContent media imageUrl message)) parallelTelegram
        env.tgSchedule fuel (by decide) (by decide) hc
      refine ⟨r, by rw [if_pos hguard]; exact h1, h3, fun _ => ⟨h2, h4⟩, ?_⟩
      intro hdown
      simp only [Bool.and_eq_true] at hguard
      rw [hdown] at hguard; exact absurd hguard.1 (by decide)
    · refine ⟨emptyRun, by rw [if_neg hguard], by simp [sendsOf_emptyRun], ?_, fun _ => ⟨rfl, rfl⟩⟩
      intro h1
      have hlen : store.chats.length = 0 := by
        simp only [h1, Bool.true_and, decide_eq_true_eq] at hguard
        omega
      have hnil : store.chats = [] := List.eq_nil_of_length_eq_zero hlen
      rw [hnil]
      exact ⟨rfl, by simp⟩
  obtain ⟨wppRun, hw0, hw1, hw2, hw3⟩ := hw
  obtain ⟨tgRun, ht0, ht1, ht2, ht3⟩ := ht
  refine ⟨{ whatsapp := wppRun.results, telegram := tgRun.results,
            wppSends := sendsOf (wppContent media message) wppRun,
            tgSends := sendsOf (tgContent media imageUrl message) tgRun, media := media },
    ?_, rfl, hw1, ht1, hw2, hw3, ht2, ht3⟩
  unfold sendToAll
  simp only [readJson, hmedia, hw0, ht0]

/-- C13: in `sendToAll`, a backend that is unavailable (WhatsApp: not connected or
no socket; Telegram: no bot) gets no send and reports the zero result, while the
fan-out of the other backend, if that one is available, still covers every
recipient of its registry and its counts add up to the registry size. -/
theorem sendToAll_backend_unavailable (env : Backends) (store : Store) (conn : Connection)
    (telegramBot : Bool) (message : String) (imageUrl : Option String)
    (directMedia : Option Media) (fuel : Nat) (hg : store.groups.length < fuel)
    (hc : store.chats.length < fuel) :
    ∃ summary, sendToAll env store conn telegramBot message imageUrl directMedia fuel =
        some (.ok summary) ∧
      (conn.isConnected = false ∨ conn.sock = false →
        summary.whatsapp = { success := 0, failed := 0, errors := [] } ∧
        summary.wppSends = [] ∧
        (telegramBot = true →
          summary.telegram.success + summary.telegram.failed = store.chats.length ∧
          ∀ id ∈ store.chats, ∃ p ∈ summary.tgSends, p.1 = id)) ∧
      (telegramBot = false →
        summary.telegram = { success := 0, failed := 0, errors := [] } ∧
        summary.tgSends = [] ∧
        (conn.isConnected = true → conn.sock = true →
          summary.whatsapp.success + summary.whatsapp.failed = store.groups.length ∧
          ∀ id ∈ store.groups, ∃ p ∈ summary.wppSends, p.1 = id)) := by
  obtain ⟨summary, h0, -, -, -, hwUp, hwDown, htUp, htDown⟩ :=
    sendToAll_spec env store conn telegramBot message imageUrl directMedia fuel hg hc
  refine ⟨summary, h0, ?_, ?_⟩
  · intro hdown
    refine ⟨(hwDown hdown).1, (hwDown hdown).2, fun htg => ⟨(htUp htg).1, ?_⟩⟩
    intro id hid
    exact ⟨_, (htUp htg).2 id hid, rfl⟩
  · intro hdown
    refine ⟨(htDown hdown).1, (htDown hdown).2, fun h1 h2 => ⟨(hwUp h1 h2).1, ?_⟩⟩
    intro id hid
    exact ⟨_, (hwUp h1 h2).2 id hid, rfl⟩

theorem sendToAll_backend_unavailable_witness :
    (Store.mk ["g1", "g2"] ["t1", "t2", "t3"] []).groups.length < 4 ∧
    (Store.mk ["g1", "g2"] ["t1", "t2", "t3"] []).chats.length < 4 ∧
    sendToAll ⟨fun _ => .error ⟨none⟩, fun _ _ _ _ => .ok (),
        fun _ idx _ _ => if idx = 1 then .error ⟨some "blocked"⟩ else .ok (),
        fun i => i, fun i => i⟩
      ⟨["g1", "g2"], ["t1", "t2", "t3"], []⟩ ⟨true, false⟩ true "oi" none none 4 =
      some (.ok
        { whatsapp := ⟨0, 0, []⟩
          telegram := ⟨2, 1, [⟨"t2", "blocked"⟩]⟩
          wppSends := []
          tgSends := [("t1", .sendMessage "oi"), ("t2", .sendMessage "oi"),
            ("t2", .sendMessage "oi"), ("t3", .sendMessage "oi")]
          media := none }) ∧
    ∃ summary,
      sendToAll ⟨fun _ => .error ⟨none⟩, fun _ _ _ _ => .ok (),
          fun _ idx _ _ => if idx = 1 then .error ⟨some "blocked"⟩ else .ok (),
          fun i => i, fun i => i⟩
        ⟨["g1", "g2"], ["t1", "t2", "t3"], []⟩ ⟨true, false⟩ true "oi" none none 4 =
        some (.ok summary) ∧
      summary.whatsapp = { success := 0, failed := 0, errors := [] } ∧
      summary.wppSends = [] :=
  ⟨by decide, by decide, by rfl,
    (sendToAll_backend_unavailable
      ⟨fun _ => .error ⟨none⟩, fun _ _ _ _ => .ok (),
        fun _ idx _ _ => if idx = 1 then .error ⟨some "blocked"⟩ else .ok (),
        fun i => i, fun i => i⟩
      ⟨["g1", "g2"], ["t1", "t2", "t3"], []⟩ ⟨true, false⟩ true "oi" none none 4
      (by decide) (by decide)).imp fun _ h =>
        ⟨h.1, (h.2.1 (Or.inl rfl)).1, (h.2.1 (Or.inl rfl)).2.1⟩⟩

/-- C14 fails on the Telegram closure: whatever the MIME type of a media payload
holding a buffer, the Telegram backend is called with `sendPhoto`, while the
WhatsApp closure of the same `sendToAll` picks a video message for a video MIME
type.  Evaluated on a video payload with one recipient per backend. -/
theorem sendToAll_telegram_ignores_mime :
    (∀ (buffer : Buffer) (mimetype : Option String) (message : String),
      tgContent (some ⟨some buffer, mimetype⟩) none message =
        .sendPhotoBuffer buffer (orElse message "")) ∧
    wppContent (some ⟨some [1, 2], some "video/mp4"⟩) "clip" = .video [1, 2] "clip" ∧
    sendToAll ⟨fun _ => .error ⟨none⟩, fun _ _ _ _ => .ok (), fun _ _ _ _ => .ok (),
        fun i => i, fun i => i⟩
      ⟨["g1"], ["t1"], []⟩ ⟨true, true⟩ true "clip" none
      (some ⟨some [1, 2], some "video/mp4"⟩) 2 =
      some (.ok
        { whatsapp := ⟨1, 0, []⟩
          telegram := ⟨1, 0, []⟩
          wppSends := [("g1", .video [1, 2] "clip")]
          tgSends := [("t1", .sendPhotoBuffer [1, 2] "clip")]
          media := some ⟨some [1, 2], some "video/mp4"⟩ }) :=
  ⟨fun _ _ _ => rfl, by rfl, by rfl⟩

/-- C15: when `directMedia` is absent and the request for `imageUrl` fails,
`sendToAll` still returns its summary, the media payload is absent, every send to
every recipient of both backends is a text send, and the broadcast still goes out as
text: every recipient of an available backend is sent the text and the counts of that
backend add up to its registry size. -/
theorem sendToAll_fetch_failure (env : Backends) (store : Store) (conn : Connection)
    (telegramBot : Bool) (message url : String) (e : Thrown) (fuel : Nat)
    (hfetch : env.axiosGet url = .error e) (hg : store.groups.length < fuel)
    (hc : store.chats.length < fuel) :
    ∃ summary, sendToAll env store conn telegramBot message (some url) none fuel =
        some (.ok summary) ∧
      summary.media = none ∧
      (∀ p ∈ summary.wppSends, p.2 = .text (orElse message "📣 Nova mensagem!")) ∧
      (∀ p ∈ summary.tgSends, p.2 = .sendMessage (orElse message "📣 Nova mensagem!")) ∧
      (conn.isConnected = true → conn.sock = true →
        summary.whatsapp.success + summary.whatsapp.failed = store.groups.length ∧
        ∀ id ∈ store.groups,
          (id, WaContent.text (orElse message "📣 Nova mensagem!")) ∈ summary.wppSends) ∧
      (telegramBot = true →
        summary.telegram.success + summary.telegram.failed = store.chats.length ∧
        ∀ id ∈ store.chats,
          (id, TgCall.sendMessage (orElse message "📣 Nova mensagem!")) ∈ summary.tgSends) := by
  obtain ⟨summary, h0, hmedia, hw, ht, hwUp, -, htUp, -⟩ :=
    sendToAll_spec env store conn telegramBot message (some url) none fuel hg hc
  have hnone : summary.media = none := by
    rw [hmedia]
    by_cases hu : url = ""
    · simp [truthy, hu]
    · simp [truthy, hu, getMediaFromUrl, hfetch]
  rw [hnone] at hw ht hwUp htUp
  exact ⟨summary, h0, hnone, fun p hp => (hw p hp).2, fun p hp => (ht p hp).2,
    hwUp, htUp⟩

theorem sendToAll_fetch_failure_witness :
    sendToAll ⟨fun _ => .error ⟨some "timeout"⟩, fun _ _ _ _ => .ok (),
        fun _ _ _ _ => .ok (), fun i => i, fun i => i⟩
      ⟨["g1", "g2"], ["t1"], []⟩ ⟨true, true⟩ true "promo" (some "https://x.org/a.png") none
      3 =
      some (.ok
        { whatsapp := ⟨2, 0, []⟩
          telegram := ⟨1, 0, []⟩
          wppSends := [("g1", .text "promo"), ("g2", .text "promo")]
          tgSends := [("t1", .sendMessage "promo")]
          media := none }) ∧
    ∃ summary,
      sendToAll ⟨fun _ => .error ⟨some "timeout"⟩, fun _ _ _ _ => .ok (),
          fun _ _ _ _ => .ok (), fun i => i, fun i => i⟩
        ⟨["g1", "g2"], ["t1"], []⟩ ⟨true, true⟩ true "promo" (some "https://x.org/a.png")
        none 3 = some (.ok summary) ∧
      summary.media = none ∧
      (∀ p ∈ summary.wppSends, p.2 = .text (orElse "promo" "📣 Nova mensagem!")) ∧
      (∀ p ∈ summary.tgSends, p.2 = .sendMessage (orElse "promo" "📣 Nova mensagem!")) ∧
      (∀ id ∈ ["g1", "g2"],
        (id, WaContent.text (orElse "promo" "📣 Nova mensagem!")) ∈ summary.wppSends) ∧
      (∀ id ∈ ["t1"],
        (id, TgCall.sendMessage (orElse "promo" "📣 Nova mensagem!")) ∈ summary.tgSends) :=
  ⟨by rfl,
    (sendToAll_fetch_failure
      ⟨fun _ => .error ⟨some "timeout"⟩, fun _ _ _ _ => .ok (), fun _ _ _ _ => .ok (),
        fun i => i, fun i => i⟩
      ⟨["g1", "g2"], ["t1"], []⟩ ⟨true, true⟩ true "promo" "https://x.org/a.png"
      ⟨some "timeout"⟩ 3 rfl (by decide) (by decide)).imp fun _ h =>
        ⟨h.1, h.2.1, h.2.2.1, h.2.2.2.1, (h.2.2.2.2.1 rfl rfl).2, (h.2.2.2.2.2 rfl).2⟩⟩

/-- C16: `sendToAll(message, null, null)` issues only text sends; their content is
the message itself when it is not empty and the placeholder text when it is empty;
every recipient of an available backend is sent that text. -/
theorem sendToAll_text_only (env : Backends) (store : Store) (conn : Connection)
    (telegramBot : Bool) (message : String) (fuel : Nat) (hg : store.groups.length < fuel)
    (hc : store.chats.length < fuel) :
    ∃ summary, sendToAll env store conn telegramBot message none none fuel =
        some (.ok summary) ∧
      (∀ p ∈ summary.wppSends,
        p.2 = .text (if message = "" then "📣 Nova mensagem!" else message)) ∧
      (∀ p ∈ summary.tgSends,
        p.2 = .sendMessage (if message = "" then "📣 Nova mensagem!" else message)) ∧
      (conn.isConnected = true → conn.sock = true → ∀ id ∈ store.groups,
        (id, WaContent.text (if message = "" then "📣 Nova mensagem!" else message)) ∈
          summary.wppSends) ∧
      (telegramBot = true → ∀ id ∈ store.chats,
        (id, TgCall.sendMessage (if message = "" then "📣 Nova mensagem!" else message)) ∈
          summary.tgSends) := by
  obtain ⟨summary, h0, hmedia, hw, ht, hwUp, -, htUp, -⟩ :=
    sendToAll_spec env store conn telegramBot message none none fuel hg hc
  have hnone : summary.media = none := by rw [hmedia]; rfl
  rw [hnone] at hw ht hwUp htUp
  exact ⟨summary, h0, fun p hp => (hw p hp).2, fun p hp => (ht p hp).2,
    fun h1 h2 => (hwUp h1 h2).2, fun h1 => (htUp h1).2⟩

theorem sendToAll_text_only_witness :
    (Store.mk ["g1"] ["t1"] []).groups.length < 2 ∧
    (Store.mk ["g1"] ["t1"] []).chats.length < 2 ∧
    sendToAll ⟨fun _ => .error ⟨none⟩, fun _ _ _ _ => .ok (), fun _ _ _ _ => .ok (),
        fun i => i, fun i => i⟩
      ⟨["g1"], ["t1"], []⟩ ⟨true, true⟩ true "hello" none none 2 =
      some (.ok
        { whatsapp := ⟨1, 0, []⟩
          telegram := ⟨1, 0, []⟩
          wppSends := [("g1", .text "hello")]
          tgSends := [("t1", .sendMessage "hello")]
          media := none }) ∧
    ∃ summary,
      sendToAll ⟨fun _ => .error ⟨none⟩, fun _ _ _ _ => .ok (), fun _ _ _ _ => .ok (),
          fun i => i, fun i => i⟩
        ⟨["g1"], ["t1"], []⟩ ⟨true, true⟩ true "" none none 2 = some (.ok summary) ∧
      (∀ p ∈ summary.wppSends, p.2 = .text "📣 Nova mensagem!") ∧
      (∀ p ∈ summary.tgSends, p.2 = .sendMessage "📣 Nova mensagem!") :=
  ⟨by decide, by decide, by rfl,
    (sendToAll_text_only
      ⟨fun _ => .error ⟨none⟩, fun _ _ _ _ => .ok (), fun _ _ _ _ => .ok (),
        fun i => i, fun i => i⟩
      ⟨["g1"], ["t1"], []⟩ ⟨true, true⟩ true "" 2 (by decide) (by decide)).imp fun _ h =>
        ⟨h.1, h.2.1, h.2.2.1⟩⟩

/-! ## Claims on the administrator message handler -/

/-- C11: a message whose sender number is not in the list `getAdmins()` returns when
the message is handled leaves the world as it was: no reply (not even an attempt),
no command, no broadcast, no registry write, whatever its text.  Hence, in the
messages of an event, each handled with the administrators file as it is at that
moment, such a message can be dropped without changing the outcome, whatever was
authorized before it. -/
theorem unauthorized_message_ignored (env : Env) (adminsFile : AdminsFile) (msg : Msg)
    (fuel : Nat) (chatId : String) (hjid : msg.remoteJid = some chatId)
    (hauth : senderNumberOf chatId ∉ getAdmins adminsFile) :
    (∀ w : World, handleMessage env adminsFile msg fuel w = some w) ∧
    ∀ (type : String) (before after : List (Msg × AdminsFile)) (w : World),
      messagesUpsert env type fuel (before ++ (msg, adminsFile) :: after) w =
        messagesUpsert env type fuel (before ++ after) w := by
  have hone : ∀ w : World, handleMessage env adminsFile msg fuel w = some w := by
    intro w
    unfold handleMessage messageBody
    cases hme : msg.fromMe with
    | true => simp
    | false =>
      simp only [Bool.false_eq_true, if_false, hjid]
      by_cases hce : chatId = ""
      · simp [truthy, hce]
      · simp only [truthy, hce, if_false]
        by_cases hgr : endsWith chatId "@g.us" = true
        · simp [hgr]
        · simp [hgr, hauth]
  refine ⟨hone, ?_⟩
  intro type before
  have hskip : type ≠ "notify" → ∀ (l : List (Msg × AdminsFile)) (w : World),
      messagesUpsert env type fuel l w = some w := by
    intro ht l w
    cases l with
    | nil => rfl
    | cons a rest =>
      obtain ⟨m, f⟩ := a
      simp [messagesUpsert, ht]
  have hdrop : ∀ (l : List (Msg × AdminsFile)) (w : World),
      messagesUpsert env type fuel ((msg, adminsFile) :: l) w =
        messagesUpsert env type fuel l w := by
    intro l w
    by_cases ht : type ≠ "notify"
    · rw [hskip ht, hskip ht]
    · simp only [messagesUpsert, ht, if_false, hone]
  induction before with
  | nil =>
    intro after w
    exact hdrop after w
  | cons a rest ih =>
    intro after w
    obtain ⟨m, f⟩ := a
    simp only [List.cons_append, messagesUpsert]
    split
    · rfl
    · cases handleMessage env f m fuel w with
      | none => rfl
      | some w1 => exact ih after w1

theorem unauthorized_message_ignored_witness :
    (textMsg "5512@s.whatsapp.net" "status").remoteJid = some "5512@s.whatsapp.net" ∧
    senderNumberOf "5512@s.whatsapp.net" ∉ getAdmins (.parsed (some ["5511"])) ∧
    handleMessage exampleEnv (.parsed (some ["5511"])) (textMsg "5512@s.whatsapp.net" "status")
      5 exampleWorld = some exampleWorld ∧
    handleMessage exampleEnv (.parsed (some ["5511", "5512"]))
        (textMsg "5512@s.whatsapp.net" "status") 5 exampleWorld =
      some { exampleWorld with
        effects := [.reply (some "5512@s.whatsapp.net") (.status 1 1 true true)] } ∧
    messagesUpsert exampleEnv "notify" 5
        [(textMsg "5512@s.whatsapp.net" "status", .parsed (some ["5511", "5512"])),
          (textMsg "5512@s.whatsapp.net" "status", .parsed (some ["5511"]))]
        exampleWorld =
      messagesUpsert exampleEnv "notify" 5
        [(textMsg "5512@s.whatsapp.net" "status", .parsed (some ["5511", "5512"]))]
        exampleWorld :=
  have h := unauthorized_message_ignored exampleEnv (.parsed (some ["5511"]))
    (textMsg "5512@s.whatsapp.net" "status") 5 "5512@s.whatsapp.net" rfl (by decide)
  ⟨rfl, by decide, h.1 exampleWorld, by rfl,
    h.2 "notify" [(textMsg "5512@s.whatsapp.net" "status", .parsed (some ["5511", "5512"]))]
      [] exampleWorld⟩

theorem andThen_ne_false {α : Type} (s : Step α) (f : World → α → Step Bool)
    (hf : ∀ w a, (f w a).2 ≠ .ok false) : (s.andThen f).2 ≠ .ok false := by
  obtain ⟨w, r⟩ := s
  cases r with
  | ok a => exact hf w a
  | error e => simp [Step.andThen]

theorem replied_ne_false {α : Type} (s : Step α) (g : World → World) :
    (s.andThen fun w _ => (g w, .ok true)).2 ≠ .ok false :=
  andThen_ne_false s _ (by intro w a; simp)

theorem commandBody_not_command (env : Env) (comando : String) (chatId : Option String)
    (w : World)
    (h : comando ∉ ["status", "test", "teste", "reset", "help", "ajuda", "sync", "sincronizar",
      "update", "atualizar"]) :
    commandBody env comando chatId w = (w, .ok false) := by
  simp only [List.mem_cons, List.mem_singleton, List.not_mem_nil, or_false, not_or] at h
  obtain ⟨h1, h2, h3, h4, h5, h6, h7, h8, h9, h10⟩ := h
  simp [commandBody, h1, h2, h3, h4, h5, h6, h7, h8, h9, h10]

theorem commandBody_command (env : Env) (comando : String) (chatId : Option String)
    (w : World)
    (h : comando ∈ ["status", "test", "teste", "reset", "help", "ajuda", "sync", "sincronizar",
      "update", "atualizar"]) :
    (commandBody env comando chatId w).2 ≠ .ok false := by
  unfold commandBody
  split
  · exact replied_ne_false _ fun w1 => w1
  split
  · exact replied_ne_false _ fun w1 => w1
  split
  · exact replied_ne_false _ fun w1 =>
      { w1 with effects := w1.effects ++ [.sessionCleared, .exitScheduled] }
  split
  · exact replied_ne_false _ fun w1 => w1
  split
  · exact andThen_ne_false _ _ fun w1 _ => replied_ne_false _ fun w4 => w4
  split
  · exact replied_ne_false _ fun w1 => { w1 with effects := w1.effects ++ [.updateCheck] }
  · rename_i h1 h2 h3 h4 h5 h6
    simp only [List.mem_cons, List.mem_singleton, List.not_mem_nil, or_false] at h
    exfalso
    rcases h with h | h | h | h | h | h | h | h | h | h
    · exact h1 h
    · exact h2 (Or.inl h)
    · exact h2 (Or.inr h)
    · exact h3 h
    · exact h4 (Or.inl h)
    · exact h4 (Or.inr h)
    · exact h5 (Or.inl h)
    · exact h5 (Or.inr h)
    · exact h6 (Or.inl h)
    · exact h6 (Or.inr h)

theorem sockReply_ok (env : Env) (h : ∀ n, env.replyOutcome n = .ok ()) (chatId : Option String)
    (text : ReplyText) (w : World) :
    sockReply env chatId text w =
      ({ w with effects := w.effects ++ [.reply chatId text] }, .ok ()) := by
  simp [sockReply, h]

theorem commandBody_replies_ok (env : Env) (h : ∀ n, env.replyOutcome n = .ok ())
    (comando : String) (chatId : Option String) (w : World)
    (hc : comando ∈ ["status", "test", "teste", "reset", "help", "ajuda", "sync",
      "sincronizar", "update", "atualizar"]) :
    (commandBody env comando chatId w).2 = .ok true := by
  have hsync : ∀ w1 : World,
      ((((syncGroupsStep env w1).andThen fun w2 result =>
            sockReply env chatId (.syncDone result) w2).recover
          fun w3 error => sockReply env chatId (.syncError error.message) w3).andThen
        fun w4 _ => ((w4, .ok true) : Step Bool)).2 = .ok true := by
    intro w1
    cases hs : syncGroupsStep env w1 with
    | mk w2 r =>
      cases r with
      | ok result => simp [Step.andThen, Step.recover, sockReply_ok env h]
      | error e => simp [Step.andThen, Step.recover, sockReply_ok env h]
  unfold commandBody
  split
  · simp [Step.andThen, sockReply_ok env h]
  split
  · simp [Step.andThen, sockReply_ok env h]
  split
  · simp [Step.andThen, sockReply_ok env h]
  split
  · simp [Step.andThen, sockReply_ok env h]
  split
  · rw [sockReply_ok env h]
    exact hsync _
  split
  · simp [Step.andThen, sockReply_ok env h]
  · rename_i h1 h2 h3 h4 h5 h6
    simp only [List.mem_cons, List.mem_singleton, List.not_mem_nil, or_false] at hc
    exfalso
    rcases hc with h | h | h | h | h | h | h | h | h | h
    · exact h1 h
    · exact h2 (Or.inl h)
    · exact h2 (Or.inr h)
    · exact h3 h
    · exact h4 (Or.inl h)
    · exact h4 (Or.inr h)
    · exact h5 (Or.inl h)
    · exact h5 (Or.inr h)
    · exact h6 (Or.inl h)
    · exact h6 (Or.inr h)

/-- C12 as stated fails: the six words are not the only commands.  The text
"Ajuda" is none of status, test, sync, update, reset, help after trimming and
lower-casing, yet `processCommand` answers it with the help text and returns
true. -/
theorem processCommand_alias_is_command :
    ¬ ∀ (env : Env) (msg : Msg) (w : World),
        ((processCommand env msg w).2 = .ok true ↔
          env.toLowerCase (env.trim (messageText msg)) ∈
            ["status", "test", "sync", "update", "reset", "help"]) := by
  intro h
  have h1 : (processCommand exampleEnv (textMsg "5511@s.whatsapp.net" "Ajuda") exampleWorld).2 =
      .ok true := by rfl
  have h2 := (h exampleEnv (textMsg "5511@s.whatsapp.net" "Ajuda") exampleWorld).1 h1
  revert h2
  decide

/-- C12 (amended): `processCommand` treats a message as a command exactly when its
text, trimmed and lower-cased, is one of the ten words status, test, teste, reset,
help, ajuda, sync, sincronizar, update, atualizar.  For any other text it returns
false and leaves the world as it was (no reply, no mutation), and the handler goes
on to the broadcast part.  For one of the ten words it never returns false: it
returns true, or it rejects when the reply and then the error reply both fail; it
returns true when the replies are delivered; in each case the handler stops at the
command and does not broadcast the message. -/
theorem processCommand_recognises (env : Env) (msg : Msg) (w : World) :
    (env.toLowerCase (env.trim (messageText msg)) ∉
        ["status", "test", "teste", "reset", "help", "ajuda", "sync", "sincronizar",
          "update", "atualizar"] →
      processCommand env msg w = (w, .ok false) ∧
      ∀ (adminsFile : AdminsFile) (fuel : Nat) (chatId : String),
        msg.fromMe = false → truthy msg.remoteJid = some chatId →
        endsWith chatId "@g.us" = false → senderNumberOf chatId ∈ getAdmins adminsFile →
        messageBody env adminsFile msg fuel w = broadcastBody env msg chatId fuel w) ∧
    (env.toLowerCase (env.trim (messageText msg)) ∈
        ["status", "test", "teste", "reset", "help", "ajuda", "sync", "sincronizar",
          "update", "atualizar"] →
      (processCommand env msg w).2 ≠ .ok false ∧
      ((∀ n, env.replyOutcome n = .ok ()) → (processCommand env msg w).2 = .ok true) ∧
      ∀ (adminsFile : AdminsFile) (fuel : Nat),
        handleMessage env adminsFile msg fuel w = some w ∨
        handleMessage env adminsFile msg fuel w = some (processCommand env msg w).1) := by
  refine ⟨?_, ?_⟩
  · intro h
    have hpc : processCommand env msg w = (w, .ok false) := by
      unfold processCommand
      rw [commandBody_not_command env _ _ w h]
      rfl
    refine ⟨hpc, ?_⟩
    intro adminsFile fuel chatId hme hjid hgr hadm
    unfold messageBody
    simp [hme, hjid, hgr, hadm, hpc]
  · intro h
    have hne : (processCommand env msg w).2 ≠ .ok false := by
      unfold processCommand
      have hb := commandBody_command env _ msg.remoteJid w h
      cases hcb : commandBody env (env.toLowerCase (env.trim (messageText msg))) msg.remoteJid w with
      | mk w1 r =>
        rw [hcb] at hb
        cases r with
        | ok b =>
          cases b with
          | true => simp [Step.recover]
          | false => exact absurd rfl hb
        | error e =>
          simp only [Step.recover]
          exact replied_ne_false _ fun w2 => w2
    refine ⟨hne, ?_, ?_⟩
    · intro hok
      unfold processCommand
      have hb := commandBody_replies_ok env hok _ msg.remoteJid w h
      cases hcb : commandBody env (env.toLowerCase (env.trim (messageText msg))) msg.remoteJid w with
      | mk w1 r =>
        rw [hcb] at hb
        simp only at hb
        subst hb
        rfl
    · intro adminsFile fuel
      unfold handleMessage messageBody
      cases hme : msg.fromMe with
      | true => left; simp
      | false =>
        simp only [Bool.false_eq_true, if_false]
        cases hjid : truthy msg.remoteJid with
        | none => left; simp
        | some chatId =>
          simp only
          by_cases hgr : endsWith chatId "@g.us" = true
          · left; simp [hgr]
          · by_cases hadm : senderNumberOf chatId ∈ getAdmins adminsFile
            · right
              cases hpc : processCommand env msg w with
              | mk w1 r =>
                rw [hpc] at hne
                cases r with
                | ok b =>
                  cases b with
                  | true => simp [hgr, hadm]
                  | false => exact absurd rfl hne
                | error e => simp [hgr, hadm]
            · left; simp [hgr, hadm]

theorem processCommand_recognises_witness :
    asciiLower (spaceTrim (messageText (textMsg "5511@s.whatsapp.net" " STATUS "))) ∈
        ["status", "test", "teste", "reset", "help", "ajuda", "sync", "sincronizar",
          "update", "atualizar"] ∧
    (processCommand exampleEnv (textMsg "5511@s.whatsapp.net" " STATUS ") exampleWorld).2 ≠
        .ok false ∧
    processCommand exampleEnv (textMsg "5511@s.whatsapp.net" " STATUS ") exampleWorld =
      ({ exampleWorld with
          effects := [.reply (some "5511@s.whatsapp.net") (.status 1 1 true true)] },
        .ok true) ∧
    asciiLower (spaceTrim (messageText (textMsg "5511@s.whatsapp.net" "status do dia"))) ∉
        ["status", "test", "teste", "reset", "help", "ajuda", "sync", "sincronizar",
          "update", "atualizar"] ∧
    processCommand exampleEnv (textMsg "5511@s.whatsapp.net" "status do dia") exampleWorld =
      (exampleWorld, .ok false) :=
  ⟨by decide,
    ((processCommand_recognises exampleEnv (textMsg "5511@s.whatsapp.net" " STATUS ")
      exampleWorld).2 (by decide)).1,
    by rfl, by decide,
    ((processCommand_recognises exampleEnv (textMsg "5511@s.whatsapp.net" "status do dia")
      exampleWorld).1 (by decide)).1⟩

theorem isPrefixOf_append_self (p t : List Char) : p.isPrefixOf (p ++ t) = true := by
  induction p with
  | nil => simp [List.isPrefixOf]
  | cons a p ih => simp [List.isPrefixOf, ih]

theorem matchExtension_dot (ext : List Char) (e : String) (he : e ∈ mediaExtensions)
    (hext : ext.map Char.toLower = e.toList) : matchExtension (".".toList ++ ext) = true := by
  have hdot : ".".toList = [Char.ofNat 46] := by rfl
  have hlow : Char.toLower (Char.ofNat 46) = Char.ofNat 46 := by decide
  unfold matchExtension startsWithCI
  rw [hdot]
  simp only [List.singleton_append, List.map_cons, hlow, List.drop_succ_cons, List.drop_zero,
    Bool.and_eq_true, List.any_eq_true]
  refine ⟨by simp [List.isPrefixOf], e, he, ?_⟩
  rw [hext]
  simp

theorem matchRest_append (tail : List Char) (htail : matchExtension tail = true) :
    ∀ mid : List Char, mid ≠ [] → (∀ ch ∈ mid, isLineTerminator ch = false) →
      matchRest (mid ++ tail) = true := by
  intro mid
  induction mid with
  | nil => intro h; exact absurd rfl h
  | cons ch rest ih =>
    intro _ hterm
    have hch : isLineTerminator ch = false := hterm ch (List.mem_cons_self _ _)
    cases rest with
    | nil => simp [matchRest, hch, htail]
    | cons ch2 rest2 =>
      have := ih (by simp) (fun c hc => hterm c (List.mem_cons_of_mem _ hc))
      simp only [List.cons_append, matchRest, hch, Bool.not_false, Bool.true_and,
        Bool.or_eq_true]
      right
      simpa [matchRest] using this

theorem matchHere_of_scheme (scheme rest : List Char)
    (hs : scheme.map Char.toLower = "http".toList ∨ scheme.map Char.toLower = "https".toList)
    (hrest : matchRest rest = true) :
    matchHere (scheme ++ ("://".toList ++ rest)) = true := by
  have hsep : ("://".toList ++ rest).map Char.toLower =
      "://".toList ++ rest.map Char.toLower := by
    have h1 : "://".toList = [Char.ofNat 58, Char.ofNat 47, Char.ofNat 47] := by rfl
    have h2 : Char.toLower (Char.ofNat 58) = Char.ofNat 58 := by decide
    have h3 : Char.toLower (Char.ofNat 47) = Char.ofNat 47 := by decide
    rw [h1]
    simp [h2, h3]
  rcases hs with hs | hs
  · have hlen : scheme.length = 4 := by
      have := congrArg List.length hs
      simpa using this
    have hstart : startsWithCI "http" (scheme ++ ("://".toList ++ rest)) = true := by
      unfold startsWithCI
      rw [List.map_append, hs]
      exact isPrefixOf_append_self _ _
    have hdrop4 : (scheme ++ ("://".toList ++ rest)).drop 4 = "://".toList ++ rest :=
      List.drop_left' hlen
    have hdrop7 : (scheme ++ ("://".toList ++ rest)).drop 7 = rest := by
      have h7 : scheme ++ ("://".toList ++ rest) = (scheme ++ "://".toList) ++ rest := by
        rw [List.append_assoc]
      rw [h7]
      exact List.drop_left' (by rw [List.length_append, hlen]; rfl)
    have hsep2 : startsWithCI "://" ("://".toList ++ rest) = true := by
      unfold startsWithCI
      rw [hsep]
      exact isPrefixOf_append_self _ _
    unfold matchHere
    rw [hstart, hdrop4, hdrop7, hsep2, hrest]
    simp
  · have hlen : scheme.length = 5 := by
      have := congrArg List.length hs
      simpa using this
    have hstart : startsWithCI "http" (scheme ++ ("://".toList ++ rest)) = true := by
      unfold startsWithCI
      rw [List.map_append, hs]
      have : "https".toList = "http".toList ++ "s".toList := by rfl
      rw [this, List.append_assoc]
      exact isPrefixOf_append_self _ _
    have hdrop8 : (scheme ++ ("://".toList ++ rest)).drop 8 = rest := by
      have h8 : scheme ++ ("://".toList ++ rest) = (scheme ++ "://".toList) ++ rest := by
        rw [List.append_assoc]
      rw [h8]
      exact List.drop_left' (by rw [List.length_append, hlen]; rfl)
    have hs4 : startsWithCI "s://" ((scheme ++ ("://".toList ++ rest)).drop 4) = true := by
      unfold startsWithCI
      rw [List.map_drop, List.map_append, hs, hsep]
      have : "https".toList ++ ("://".toList ++ rest.map Char.toLower) =
          "http".toList ++ ("s://".toList ++ rest.map Char.toLower) := by rfl
      rw [this, List.drop_left' (by rfl)]
      exact isPrefixOf_append_self _ _
    unfold matchHere
    rw [hstart, hdrop8, hs4, hrest]
    simp

theorem mediaUrlTest_of_isMediaUrl (text : String) (h : isMediaUrl text) :
    mediaUrlTest text = true := by
  obtain ⟨scheme, mid, ext, htext, hs, hmid, hclean, e, he, hext⟩ := h
  unfold mediaUrlTest
  rw [List.any_eq_true]
  refine ⟨text.toList, by simp, ?_⟩
  rw [htext]
  exact matchHere_of_scheme scheme _ hs
    (matchRest_append _ (matchExtension_dot ext e he hext) mid hmid
      fun ch hch => (hclean ch hch).1)

theorem messageBody_not_command (env : Env) (adminsFile : AdminsFile) (msg : Msg) (fuel : Nat)
    (w : World) (chatId : String) (hme : msg.fromMe = false)
    (hjid : truthy msg.remoteJid = some chatId) (hgr : endsWith chatId "@g.us" = false)
    (hadm : senderNumberOf chatId ∈ getAdmins adminsFile)
    (hcmd : env.toLowerCase (env.trim (messageText msg)) ∉
      ["status", "test", "teste", "reset", "help", "ajuda", "sync", "sincronizar",
        "update", "atualizar"]) :
    messageBody env adminsFile msg fuel w = broadcastBody env msg chatId fuel w := by
  have hpc : processCommand env msg w = (w, .ok false) := by
    unfold processCommand
    rw [commandBody_not_command env _ _ w hcmd]
    rfl
  unfold messageBody
  simp [hme, hjid, hgr, hadm, hpc]

theorem broadcastBody_send (env : Env) (msg : Msg) (chatId : String) (fuel : Nat) (w : World)
    (out : Outgoing)
    (hreg : ¬(w.store.groups = [] ∧ w.store.chats = []))
    (hres : resolveOutgoing env msg chatId w = (w, .ok out))
    (hguard : out.content ≠ "" ∨ out.media.isSome ∨ (truthy out.imageUrl).isSome)
    (hreply : env.replyOutcome w.effects.length = .ok ())
    (hg : w.store.groups.length < fuel) (hc : w.store.chats.length < fuel) :
    ∃ summary last w1,
      sendToAll (env.backends (w.effects.length + 1)) w.store w.conn w.telegramBot
        (orElse out.content "📣 Nova mensagem do admin!") out.imageUrl out.media fuel =
        some (.ok summary) ∧
      (broadcastBody env msg chatId fuel w).map (fun s => s.1) = some w1 ∧
      w1.store = w.store ∧
      w1.effects = w.effects ++
        [.reply (some chatId) .sending,
          .broadcast (orElse out.content "📣 Nova mensagem do admin!") out.imageUrl out.media
            summary,
          last] ∧
      (last = .reply (some chatId) (.done summary) ∨
        last = .replyFailed (some chatId) (.done summary)) := by
  obtain ⟨summary, h0, -⟩ := sendToAll_spec (env.backends (w.effects.length + 1)) w.store
    w.conn w.telegramBot (orElse out.content "📣 Nova mensagem do admin!") out.imageUrl
    out.media fuel hg hc
  have hreg2 : ¬((readJson w.store .whatsappGroups).length = 0 ∧
      (readJson w.store .telegramChats).length = 0) := by
    intro h
    exact hreg ⟨List.eq_nil_of_length_eq_zero h.1, List.eq_nil_of_length_eq_zero h.2⟩
  have hbody : broadcastBody env msg chatId fuel w =
      some (sockReply env (some chatId) (.done summary)
        { w with
          effects := w.effects ++ [.reply (some chatId) .sending] ++
            [.broadcast (orElse out.content "📣 Nova mensagem do admin!") out.imageUrl
              out.media summary] }) := by
    unfold broadcastBody
    rw [if_neg hreg2, hres]
    simp only [if_pos hguard, sockReply, hreply, List.length_append, List.length_singleton]
    rw [h0]
  rw [hbody]
  cases hlast : env.replyOutcome (w.effects.length + 1 + 1) with
  | ok u =>
    refine ⟨summary, .reply (some chatId) (.done summary), _, h0, rfl, ?_, ?_, Or.inl rfl⟩
    · simp [sockReply, hlast]
    · simp [sockReply, hlast]
  | error e =>
    refine ⟨summary, .replyFailed (some chatId) (.done summary), _, h0, rfl, ?_, ?_, Or.inr rfl⟩
    · simp [sockReply, hlast]
    · simp [sockReply, hlast]

theorem not_isMediaUrl_of_no_colon (text : String) (h : Char.ofNat 58 ∉ text.toList) :
    ¬ isMediaUrl text := by
  rintro ⟨scheme, mid, ext, htext, -⟩
  apply h
  rw [htext]
  have h1 : "://".toList = [Char.ofNat 58, Char.ofNat 47, Char.ofNat 47] := by rfl
  rw [h1]
  simp

theorem not_isMediaUrl_of_start (text : String)
    (h4 : (text.toList.take 4).map Char.toLower ≠ "http".toList) : ¬ isMediaUrl text := by
  rintro ⟨scheme, mid, ext, htext, hs, -⟩
  apply h4
  rw [htext]
  rcases hs with hs | hs
  · have hlen : scheme.length = 4 := by
      have := congrArg List.length hs
      simpa using this
    rw [List.take_left' hlen, hs]
  · have hlen : scheme.length = 5 := by
      have := congrArg List.length hs
      simpa using this
    rw [List.take_append_of_le_length (by omega), List.map_take, hs]
    rfl

/-- C17 as stated fails, in both of its parts.  A text that is no command is not
always passed to `sendToAll`: with both registries empty the handler answers that
no group is registered and broadcasts nothing.  And a text is treated as a media
URL also when it is not an http(s) URL ending in one of the extensions: the text
"veja https://a.com/f.JPG agora" is taken whole as the image URL, its content
replaced by the placeholder. -/
theorem handler_media_url_claim_fails :
    (¬ ∀ (env : Env) (adminsFile : AdminsFile) (msg : Msg) (fuel : Nat) (w : World)
        (chatId : String),
        msg.fromMe = false → truthy msg.remoteJid = some chatId →
        endsWith chatId "@g.us" = false → senderNumberOf chatId ∈ getAdmins adminsFile →
        env.toLowerCase (env.trim (messageText msg)) ∉
          ["status", "test", "teste", "reset", "help", "ajuda", "sync", "sincronizar",
            "update", "atualizar"] →
        msg.imageMessage = none → msg.videoMessage = none → msg.documentMessage = none →
        (∀ n, env.replyOutcome n = .ok ()) →
        w.store.groups.length < fuel → w.store.chats.length < fuel →
        ¬ isMediaUrl (messageText msg) →
        ∃ summary w1, handleMessage env adminsFile msg fuel w = some w1 ∧
          Effect.broadcast (messageText msg) none none summary ∈ w1.effects) ∧
    ¬ isMediaUrl (messageText (textMsg "5511@s.whatsapp.net" "veja https://a.com/f.JPG agora")) ∧
    handleMessage exampleEnv (.parsed (some ["5511"]))
        (textMsg "5511@s.whatsapp.net" "veja https://a.com/f.JPG agora") 5 exampleWorld =
      some { exampleWorld with
        effects :=
          [.reply (some "5511@s.whatsapp.net") .sending,
            .broadcast "📣 Nova mensagem do admin!" (some "veja https://a.com/f.JPG agora") none
              { whatsapp := ⟨1, 0, []⟩
                telegram := ⟨1, 0, []⟩
                wppSends := [("G1", .text "📣 Nova mensagem do admin!")]
                tgSends := [("t1", .sendMessage "📣 Nova mensagem do admin!")]
                media := none },
            .reply (some "5511@s.whatsapp.net")
              (.done
                { whatsapp := ⟨1, 0, []⟩
                  telegram := ⟨1, 0, []⟩
                  wppSends := [("G1", .text "📣 Nova mensagem do admin!")]
                  tgSends := [("t1", .sendMessage "📣 Nova mensagem do admin!")]
                  media := none })] } := by
  refine ⟨?_, ?_, by rfl⟩
  · intro h
    have hrun : handleMessage exampleEnv (.parsed (some ["5511"]))
        (textMsg "5511@s.whatsapp.net" "hello") 5
        { store := ⟨[], [], []⟩, conn := ⟨true, true⟩, telegramBot := true, effects := [] } =
        some { store := ⟨[], [], []⟩, conn := ⟨true, true⟩, telegramBot := true,
               effects := [.reply (some "5511@s.whatsapp.net") .noGroups] } := by rfl
    obtain ⟨summary, w1, h1, h2⟩ :=
      h exampleEnv (.parsed (some ["5511"])) (textMsg "5511@s.whatsapp.net" "hello") 5
        { store := ⟨[], [], []⟩, conn := ⟨true, true⟩, telegramBot := true, effects := [] }
        "5511@s.whatsapp.net" rfl (by rfl) (by decide) (by decide) (by decide) rfl rfl rfl
        (fun _ => rfl) (by decide) (by decide)
        (not_isMediaUrl_of_no_colon _ (by decide))
    rw [hrun] at h1
    cases h1
    simp at h2
  · exact not_isMediaUrl_of_start _ (by decide)

/-- C17 (amended): for an administrator message that is no command and has no
attached media.  When both registries are empty the handler only answers that no
group is registered.  Otherwise, when the acknowledgement reply is delivered: if the
text is an http(s) URL ending in one of the extensions jpg, jpeg, png, gif, webp, mp4,
mov, avi, `sendToAll` is called with the placeholder text, the trimmed text as
imageUrl and no media; if the pattern occurs nowhere in the text, a non-empty text is
passed to `sendToAll` unchanged, with no imageUrl and no media, and an empty text
gets the invalid-message reply.  Texts in which the pattern occurs without the text
being such a URL are left out. -/
theorem handler_media_url (env : Env) (adminsFile : AdminsFile) (msg : Msg) (fuel : Nat)
    (w : World) (chatId : String) (hme : msg.fromMe = false)
    (hjid : truthy msg.remoteJid = some chatId) (hgr : endsWith chatId "@g.us" = false)
    (hadm : senderNumberOf chatId ∈ getAdmins adminsFile)
    (hcmd : env.toLowerCase (env.trim (messageText msg)) ∉
      ["status", "test", "teste", "reset", "help", "ajuda", "sync", "sincronizar",
        "update", "atualizar"])
    (himg : msg.imageMessage = none) (hvid : msg.videoMessage = none)
    (hdoc : msg.documentMessage = none)
    (hg : w.store.groups.length < fuel) (hc : w.store.chats.length < fuel) :
    (w.store.groups = [] ∧ w.store.chats = [] →
      handleMessage env adminsFile msg fuel w =
        some (sockReply env (some chatId) .noGroups w).1) ∧
    (¬(w.store.groups = [] ∧ w.store.chats = []) →
      env.replyOutcome w.effects.length = .ok () →
      (isMediaUrl (messageText msg) → env.trim (messageText msg) ≠ "" →
        ∃ summary last w1,
          sendToAll (env.backends (w.effects.length + 1)) w.store w.conn w.telegramBot
            "📣 Nova mensagem do admin!" (some (env.trim (messageText msg))) none fuel =
            some (.ok summary) ∧
          handleMessage env adminsFile msg fuel w = some w1 ∧ w1.store = w.store ∧
          w1.effects = w.effects ++
            [.reply (some chatId) .sending,
              .broadcast "📣 Nova mensagem do admin!" (some (env.trim (messageText msg)))
                none summary,
              last] ∧
          (last = .reply (some chatId) (.done summary) ∨
            last = .replyFailed (some chatId) (.done summary))) ∧
      (mediaUrlTest (messageText msg) = false → messageText msg ≠ "" →
        ∃ summary last w1,
          sendToAll (env.backends (w.effects.length + 1)) w.store w.conn w.telegramBot
            (messageText msg) none none fuel = some (.ok summary) ∧
          handleMessage env adminsFile msg fuel w = some w1 ∧ w1.store = w.store ∧
          w1.effects = w.effects ++
            [.reply (some chatId) .sending,
              .broadcast (messageText msg) none none summary, last] ∧
          (last = .reply (some chatId) (.done summary) ∨
            last = .replyFailed (some chatId) (.done summary)))) ∧
    (¬(w.store.groups = [] ∧ w.store.chats = []) →
      mediaUrlTest (messageText msg) = false → messageText msg = "" →
      handleMessage env adminsFile msg fuel w =
        some (sockReply env (some chatId) .invalid w).1) := by
  have hbody : handleMessage env adminsFile msg fuel w =
      (broadcastBody env msg chatId fuel w).map fun s => s.1 := by
    unfold handleMessage
    rw [messageBody_not_command env adminsFile msg fuel w chatId hme hjid hgr hadm hcmd]
  have hreg2 : ¬(w.store.groups = [] ∧ w.store.chats = []) →
      ¬((readJson w.store .whatsappGroups).length = 0 ∧
        (readJson w.store .telegramChats).length = 0) := by
    intro hreg h
    exact hreg ⟨List.eq_nil_of_length_eq_zero h.1, List.eq_nil_of_length_eq_zero h.2⟩
  refine ⟨?_, ?_, ?_⟩
  · rintro ⟨h1, h2⟩
    rw [hbody]
    unfold broadcastBody
    simp [readJson, h1, h2]
  · intro hreg hreply
    refine ⟨?_, ?_⟩
    · intro hurl htrim
      have hres : resolveOutgoing env msg chatId w =
          (w, .ok { content := "", media := none,
                    imageUrl := some (env.trim (messageText msg)) }) := by
        unfold resolveOutgoing
        simp [himg, hvid, hdoc, mediaUrlTest_of_isMediaUrl _ hurl]
      obtain ⟨summary, last, w1, h1, h2, h3, h4, h5⟩ :=
        broadcastBody_send env msg chatId fuel w _ hreg hres
          (Or.inr (Or.inr (by simp [truthy, htrim]))) hreply hg hc
      exact ⟨summary, last, w1, h1, by rw [hbody]; exact h2, h3, h4, h5⟩
    · intro htest htext
      have hres : resolveOutgoing env msg chatId w =
          (w, .ok { content := messageText msg, media := none, imageUrl := none }) := by
        unfold resolveOutgoing
        simp [himg, hvid, hdoc, htest]
      obtain ⟨summary, last, w1, h1, h2, h3, h4, h5⟩ :=
        broadcastBody_send env msg chatId fuel w _ hreg hres (Or.inl htext) hreply hg hc
      have horElse : orElse (messageText msg) "📣 Nova mensagem do admin!" = messageText msg := by
        simp [orElse, htext]
      simp only [horElse] at h1 h4
      exact ⟨summary, last, w1, h1, by rw [hbody]; exact h2, h3, h4, h5⟩
  · intro hreg htest htext
    rw [hbody]
    have hres : resolveOutgoing env msg chatId w =
        (w, .ok { content := messageText msg, media := none, imageUrl := none }) := by
      unfold resolveOutgoing
      simp [himg, hvid, hdoc, htest]
    unfold broadcastBody
    rw [if_neg (hreg2 hreg), hres]
    simp [htext, truthy]

theorem handler_media_url_witness :
    handleMessage exampleEnv (.parsed (some ["5511"]))
        (textMsg "5511@s.whatsapp.net" "https://a.com/f.jpg") 5 exampleWorld =
      some { exampleWorld with
        effects :=
          [.reply (some "5511@s.whatsapp.net") .sending,
            .broadcast "📣 Nova mensagem do admin!" (some "https://a.com/f.jpg") none
              { whatsapp := ⟨1, 0, []⟩
                telegram := ⟨1, 0, []⟩
                wppSends := [("G1", .text "📣 Nova mensagem do admin!")]
                tgSends := [("t1", .sendMessage "📣 Nova mensagem do admin!")]
                media := none },
            .reply (some "5511@s.whatsapp.net")
              (.done
                { whatsapp := ⟨1, 0, []⟩
                  telegram := ⟨1, 0, []⟩
                  wppSends := [("G1", .text "📣 Nova mensagem do admin!")]
                  tgSends := [("t1", .sendMessage "📣 Nova mensagem do admin!")]
                  media := none })] } ∧
    isMediaUrl (messageText (textMsg "5511@s.whatsapp.net" "https://a.com/f.jpg")) ∧
    mediaUrlTest (messageText (textMsg "5511@s.whatsapp.net" "ola pessoal")) = false ∧
    ∃ summary last w1,
      sendToAll (exampleEnv.backends (exampleWorld.effects.length + 1)) exampleWorld.store
        exampleWorld.conn exampleWorld.telegramBot
        (messageText (textMsg "5511@s.whatsapp.net" "ola pessoal")) none none 5 =
        some (.ok summary) ∧
      handleMessage exampleEnv (.parsed (some ["5511"]))
        (textMsg "5511@s.whatsapp.net" "ola pessoal") 5 exampleWorld = some w1 ∧
      w1.store = exampleWorld.store ∧
      w1.effects = exampleWorld.effects ++
        [.reply (some "5511@s.whatsapp.net") .sending,
          .broadcast (messageText (textMsg "5511@s.whatsapp.net" "ola pessoal")) none none
            summary,
          last] ∧
      (last = .reply (some "5511@s.whatsapp.net") (.done summary) ∨
        last = .replyFailed (some "5511@s.whatsapp.net") (.done summary)) :=
  ⟨by rfl,
    ⟨"https".toList, "a.com/f".toList, "jpg".toList, by rfl, Or.inr (by rfl), by decide,
      by decide, "jpg", by decide, by rfl⟩,
    by decide,
    ((handler_media_url exampleEnv (.parsed (some ["5511"]))
      (textMsg "5511@s.whatsapp.net" "ola pessoal") 5 exampleWorld "5511@s.whatsapp.net" rfl
      (by rfl) (by decide) (by decide) (by decide) rfl rfl rfl (by decide) (by decide)).2.1
      (by decide) rfl).2 (by decide) (by decide)⟩

end Bot
